import Mathlib

/-!
# InterBankTransferAPI — verification of the transfer orchestration core

Shallow embedding of the two `BankTransferAPI` variants of the repository:

* `InterBank.Api`  — `src/api/BankTransferAPI.js` (the full saga:
  validate sender, check sender IFSC, validate receiver, check receiver
  IFSC, debit, credit, compensating rollback, transaction-history fan-out).
* `InterBank.Root` — `src/BankTransferAPI.js` (the variant with the
  five-reason `validateTransfer`, a sender-side debit only, and an
  unmasked balance patch).

The Firestore backing stores are modelled as in-memory document
collections keyed by base URL.  Each `axios` network call consumes one
index of a call counter; the call fails exactly when that index is
listed in the state's `faults` list.  This lets every failure pattern of
the spec (store unreachable at the debit / credit / compensation /
fan-out step) be realised by a concrete state.  State changes before a
thrown error persist, matching JavaScript semantics.  Methods are
embedded as functions `St → Except String α × St`; a `tryCatchE` wrapper
is placed exactly where the source has a `try`/`catch`.
-/

namespace InterBank

/-! ## Association-list maps (JS `Map.get` / `Map.set`) -/

def mget {α : Type} (k : String) : List (String × α) → Option α
  | [] => none
  | (k₁, v) :: rest => if k = k₁ then some v else mget k rest

def mremove {α : Type} (k : String) : List (String × α) → List (String × α)
  | [] => []
  | (k₁, v) :: rest => if k₁ = k then mremove k rest else (k₁, v) :: mremove k rest

/-- JS `Map.set`: insert or overwrite the binding for `k`. -/
def mapSet {α : Type} (m : List (String × α)) (k : String) (v : α) : List (String × α) :=
  (k, v) :: mremove k m

def nelem (n : Nat) : List Nat → Bool
  | [] => false
  | m :: rest => if n = m then true else nelem n rest

def keyIn (k : String) : List String → Bool
  | [] => false
  | k₁ :: rest => if k = k₁ then true else keyIn k rest

theorem mget_mremove {α : Type} (m : List (String × α)) (k k₁ : String) (h : k₁ ≠ k) :
    mget k₁ (mremove k m) = mget k₁ m := by
  induction m with
  | nil => rfl
  | cons kv rest ih =>
    obtain ⟨k₂, v⟩ := kv
    by_cases h₂ : k₂ = k
    · rw [mremove, if_pos h₂, ih, mget, if_neg (fun hh => h (hh.trans h₂))]
    · rw [mremove, if_neg h₂, mget, mget]
      by_cases h₃ : k₁ = k₂
      · rw [if_pos h₃, if_pos h₃]
      · rw [if_neg h₃, if_neg h₃, ih]

theorem mget_mapSet {α : Type} (m : List (String × α)) (k k₁ : String) (v : α) :
    mget k₁ (mapSet m k v) = if k₁ = k then some v else mget k₁ m := by
  by_cases h : k₁ = k
  · subst h; simp [mapSet, mget]
  · rw [if_neg h]
    simp only [mapSet, mget, if_neg h]
    exact mget_mremove m k k₁ h

/-! ## Firestore document model -/

inductive FireValue where
  | str (s : String)
  | int (n : Int)
deriving DecidableEq, Repr

structure FireDoc where
  name : String
  fields : List (String × FireValue)
deriving DecidableEq, Repr

def FireDoc.get (d : FireDoc) (k : String) : Option FireValue :=
  mget k d.fields

def stringValueOf : Option FireValue → Option String
  | some (FireValue.str s) => some s
  | _ => none

def integerValueOf : Option FireValue → Option Int
  | some (FireValue.int n) => some n
  | _ => none

/-- JS `a || b` on optional strings: the empty string is falsy. -/
def jsOrS : Option String → Option String → Option String
  | some s, b => if s = "" then b else some s
  | none, b => b

/-- `doc.fields?.acct_number?.stringValue ||
    doc.fields?.acct_number?.integerValue?.toString()`.
(`updateBankAccount` tries the two properties in the other order; a field
holds exactly one of the two representations, so both orders agree.) -/
def acctNumberKey (v : Option FireValue) : Option String :=
  jsOrS (stringValueOf v) ((integerValueOf v).map toString)

/-- `doc.fields?.k?.stringValue || dflt` (empty string is falsy). -/
def getStrOr (v : Option FireValue) (dflt : String) : String :=
  match stringValueOf v with
  | some s => if s = "" then dflt else s
  | none => dflt

/-- `account.name.split("/").pop()`: the substring after the last `/`
(the whole string when there is none).  Implemented by structural
recursion on the character list so that concrete document ids evaluate
inside kernel proofs. -/
def lastSegment (s : String) : String :=
  String.mk ((s.data.reverse.takeWhile (fun c => c != '/')).reverse)

/-! ### Firestore `PATCH` semantics

With an `updateMask`, exactly the masked field paths are written and all
other fields are left untouched; without a mask the request replaces the
document's whole field set. -/

def fieldsDropMasked (m : List String) : List (String × FireValue) → List (String × FireValue)
  | [] => []
  | kv :: rest =>
    if keyIn kv.1 m then fieldsDropMasked m rest else kv :: fieldsDropMasked m rest

def fieldsKeepMasked (m : List String) : List (String × FireValue) → List (String × FireValue)
  | [] => []
  | kv :: rest =>
    if keyIn kv.1 m then kv :: fieldsKeepMasked m rest else fieldsKeepMasked m rest

def applyPatchFields (fields payload : List (String × FireValue)) :
    Option (List String) → List (String × FireValue)
  | none => payload
  | some m => fieldsDropMasked m fields ++ fieldsKeepMasked m payload

def applyPatch (d : FireDoc) (payload : List (String × FireValue))
    (mask : Option (List String)) : FireDoc :=
  { d with fields := applyPatchFields d.fields payload mask }

theorem mget_append {α : Type} (l₁ l₂ : List (String × α)) (k : String) :
    mget k (l₁ ++ l₂) =
      match mget k l₁ with
      | some v => some v
      | none => mget k l₂ := by
  induction l₁ with
  | nil => rfl
  | cons kv rest ih =>
    obtain ⟨k₁, v₁⟩ := kv
    by_cases h : k = k₁
    · simp [mget, if_pos h]
    · simp only [List.cons_append, mget, if_neg h]
      exact ih

theorem mget_dropMasked_of_mem (m : List String) (fields : List (String × FireValue))
    (k : String) (h : keyIn k m = true) :
    mget k (fieldsDropMasked m fields) = none := by
  induction fields with
  | nil => rfl
  | cons kv rest ih =>
    obtain ⟨k₁, v₁⟩ := kv
    by_cases h₁ : keyIn k₁ m
    · simp only [fieldsDropMasked, if_pos h₁]; exact ih
    · simp only [fieldsDropMasked, if_neg h₁, mget]
      by_cases h₂ : k = k₁
      · subst h₂; exact absurd h h₁
      · rw [if_neg h₂]; exact ih

theorem mget_dropMasked_of_not_mem (m : List String) (fields : List (String × FireValue))
    (k : String) (h : keyIn k m = false) :
    mget k (fieldsDropMasked m fields) = mget k fields := by
  induction fields with
  | nil => rfl
  | cons kv rest ih =>
    obtain ⟨k₁, v₁⟩ := kv
    by_cases h₂ : k = k₁
    · subst h₂
      have h₁ : ¬ (keyIn k m = true) := by rw [h]; simp
      rw [fieldsDropMasked, if_neg h₁, mget, if_pos rfl, mget, if_pos rfl]
    · by_cases h₁ : keyIn k₁ m
      · rw [fieldsDropMasked, if_pos h₁, ih, mget, if_neg h₂]
      · rw [fieldsDropMasked, if_neg h₁, mget, if_neg h₂, mget, if_neg h₂, ih]

theorem mget_keepMasked_of_not_mem (m : List String) (payload : List (String × FireValue))
    (k : String) (h : keyIn k m = false) :
    mget k (fieldsKeepMasked m payload) = none := by
  induction payload with
  | nil => rfl
  | cons kv rest ih =>
    obtain ⟨k₁, v₁⟩ := kv
    by_cases h₁ : keyIn k₁ m
    · simp only [fieldsKeepMasked, if_pos h₁, mget]
      by_cases h₂ : k = k₁
      · subst h₂; rw [h₁] at h; exact absurd h (by simp)
      · rw [if_neg h₂]; exact ih
    · simp only [fieldsKeepMasked, if_neg h₁]; exact ih

/-- A masked patch leaves every field outside the mask unchanged. -/
theorem applyPatch_get_other (d : FireDoc) (payload : List (String × FireValue))
    (m : List String) (k : String) (hk : keyIn k m = false) :
    (applyPatch d payload (some m)).get k = d.get k := by
  show mget k (applyPatchFields d.fields payload (some m)) = mget k d.fields
  rw [applyPatchFields, mget_append, mget_dropMasked_of_not_mem m d.fields k hk]
  cases h : mget k d.fields with
  | some v => rfl
  | none => exact mget_keepMasked_of_not_mem m payload k hk

/-- The balance patch issued by `Api.updateBankAccount` writes the new
balance into `acct_bal`. -/
theorem applyPatch_get_bal (d : FireDoc) (v : FireValue) :
    (applyPatch d [("acct_bal", v)] (some ["acct_bal"])).get "acct_bal" = some v := by
  have hin : keyIn "acct_bal" ["acct_bal"] = true := by decide
  show mget "acct_bal" (applyPatchFields d.fields [("acct_bal", v)] (some ["acct_bal"])) =
    some v
  rw [applyPatchFields, mget_append, mget_dropMasked_of_mem _ _ _ hin]
  simp [fieldsKeepMasked, hin, mget]

theorem applyPatch_name (d : FireDoc) (payload : List (String × FireValue))
    (mask : Option (List String)) : (applyPatch d payload mask).name = d.name := rfl

/-! ## Stores, state and `axios` primitives -/

/-- One Firestore backing store (the collections the core touches). -/
structure StoreDB where
  bankAccount : List FireDoc
  liteProfile : List FireDoc
  transactionHistory : List FireDoc
deriving DecidableEq, Repr

def getColl (db : StoreDB) (coll : String) : List FireDoc :=
  if coll = "bank_account" then db.bankAccount
  else if coll = "lite_profile" then db.liteProfile
  else db.transactionHistory

/-- One `PATCH` request as issued on the wire: target store, document id,
payload fields, and the `updateMask.fieldPaths` query parameter. -/
structure PatchReq where
  base : String
  docId : String
  payload : List (String × FireValue)
  mask : Option (List String)
deriving DecidableEq, Repr

/-- One `ifscCache` entry (`{ ifscCode, name }`).  `name` is optional
because the `src/BankTransferAPI.js` variant stores
`data.name?.stringValue`, which may be absent. -/
structure Profile where
  ifscCode : String
  name : Option String
deriving DecidableEq, Repr

/-- The whole world: the backing stores keyed by base URL, the fault
schedule (`faults` lists the indices of network calls that fail),
the instance caches, and the observation logs (`patches` records every
`PATCH` attempted, `historyPosts` every `POST .../transaction_history`
attempted, whether or not it succeeded). -/
structure St where
  dbs : List (String × StoreDB)
  faults : List Nat
  callIdx : Nat
  ifscCache : List (String × Profile)
  apiByIfsc : List (String × String)
  patches : List PatchReq
  historyPosts : List String
deriving DecidableEq, Repr

/-- Constructor arguments `(senderApi, receiverApiBaseUrls)`. -/
structure Config where
  senderApi : String
  receiverApiBaseUrls : List String
deriving DecidableEq, Repr

/-- Consume one network-call index; report whether that call faults. -/
def takeCall (s : St) : Bool × St :=
  (nelem s.callIdx s.faults, { s with callIdx := s.callIdx + 1 })

/-- Error-propagating sequencing (an `await` outside any `try`). -/
def ebind {α β : Type} (m : St → Except String α × St)
    (f : α → St → Except String β × St) : St → Except String β × St :=
  fun s =>
    match m s with
    | (Except.ok a, s₁) => f a s₁
    | (Except.error e, s₁) => (Except.error e, s₁)

def epure {α : Type} (a : α) : St → Except String α × St :=
  fun s => (Except.ok a, s)

/-- `try { body } catch (e) { handler }`; state mutated before the throw
persists into the handler, as in JavaScript. -/
def tryCatchE {α : Type} (body : St → Except String α × St)
    (handler : String → St → Except String α × St) : St → Except String α × St :=
  fun s =>
    match body s with
    | (Except.ok a, s₁) => (Except.ok a, s₁)
    | (Except.error e, s₁) => handler e s₁

/-- `axios.get(baseUrl + "/" + coll)` returning `response.data.documents`.
Fails when the call faults or the base URL resolves to no store. -/
def axiosGet (base coll : String) : St → Except String (List FireDoc) × St :=
  fun s =>
    let fs := takeCall s
    if fs.1 then (Except.error "network error", fs.2)
    else
      match mget base fs.2.dbs with
      | none => (Except.error "network error", fs.2)
      | some db => (Except.ok (getColl db coll), fs.2)

/-- Apply a balance patch to the store's `bank_account` collection: the
document addressed by `docId` (the last segment of its resource name) is
updated.  (Firestore would create a missing document; no code path here
patches a document it did not just fetch, so that corner is not modelled.) -/
def patchDocIn (db : StoreDB) (docId : String) (payload : List (String × FireValue))
    (mask : Option (List String)) : StoreDB :=
  { db with bankAccount :=
      db.bankAccount.map fun d =>
        if lastSegment d.name = docId then applyPatch d payload mask else d }

/-- `axios.patch(base + "/bank_account/" + docId, payload, mask)`.  The
request attempt is recorded before the outcome is known. -/
def axiosPatch (base docId : String) (payload : List (String × FireValue))
    (mask : Option (List String)) : St → Except String Unit × St :=
  fun s =>
    let s₀ := { s with patches := s.patches ++ [⟨base, docId, payload, mask⟩] }
    let fs := takeCall s₀
    if fs.1 then (Except.error "network error", fs.2)
    else
      match mget base fs.2.dbs with
      | none => (Except.error "network error", fs.2)
      | some db =>
        (Except.ok (),
          { fs.2 with dbs := mapSet fs.2.dbs base (patchDocIn db docId payload mask) })

/-- The transaction record posted to each receiver store.  The
`timestampValue` field (`new Date().toISOString()`) is wall-clock input
observed by no claim and is omitted from the stored record. -/
structure TxRecord where
  sender_account : String
  receiver_account : String
  amount : Int
deriving DecidableEq, Repr

def txDoc (t : TxRecord) : FireDoc :=
  { name := ""
    fields := [("sender_account", FireValue.str t.sender_account),
               ("receiver_account", FireValue.str t.receiver_account),
               ("amount", FireValue.int t.amount)] }

/-- `axios.post(base + "/transaction_history", data)`.  The attempt is
recorded before the outcome is known. -/
def axiosPost (base : String) (t : TxRecord) : St → Except String Unit × St :=
  fun s =>
    let s₀ := { s with historyPosts := s.historyPosts ++ [base] }
    let fs := takeCall s₀
    if fs.1 then (Except.error "network error", fs.2)
    else
      match mget base fs.2.dbs with
      | none => (Except.error "network error", fs.2)
      | some db =>
        let db₂ := { db with transactionHistory := db.transactionHistory ++ [txDoc t] }
        (Except.ok (), { fs.2 with dbs := mapSet fs.2.dbs base db₂ })

/-! ## Observers -/

/-- The `bank_account` collection a base URL currently resolves to. -/
def bankOf (s : St) (base : String) : Option (List FireDoc) :=
  (mget base s.dbs).map StoreDB.bankAccount

/-- Find an account document by account number, exactly as both variants'
`accounts.find(...)` does. -/
def findAccountDoc (docs : List FireDoc) (acct : String) : Option FireDoc :=
  docs.find? fun d => acctNumberKey (d.get "acct_number") == some acct

/-- The balance currently stored for `acct` in the store at `base`. -/
def storedBalance (s : St) (base acct : String) : Option Int :=
  match bankOf s base with
  | none => none
  | some docs =>
    match findAccountDoc docs acct with
    | none => none
    | some d => integerValueOf (d.get "acct_bal")

namespace Api

/-! ## `src/api/BankTransferAPI.js` -/

/-- One document of a `lite_profile` response, as processed by the
`documents.forEach` body of `fetchIFSCs`: a document with a usable
`acct_number` populates both `ifscCache` and `apiByIfsc`; any other
document is skipped with a warning. -/
def processLiteDoc (baseUrl : String) (d : FireDoc) (s : St) : St :=
  match acctNumberKey (d.get "acct_number") with
  | some acct =>
    let ifsc := getStrOr (d.get "ifsc_code") "unknown"
    let nm := getStrOr (d.get "name") "unknown"
    { s with ifscCache := mapSet s.ifscCache acct ⟨ifsc, some nm⟩,
             apiByIfsc := mapSet s.apiByIfsc ifsc baseUrl }
  | none => s

/-- The per-store arm of `fetchIFSCs`: fetch `lite_profile`, process each
document; any error is caught and logged. -/
def fetchIFSCsFrom (baseUrl : String) : St → Except String Unit × St :=
  tryCatchE
    (ebind (axiosGet baseUrl "lite_profile") fun docs s =>
      (Except.ok (), docs.foldl (fun s d => processLiteDoc baseUrl d s) s))
    (fun _ s => (Except.ok (), s))

/-- `fetchIFSCs`: populate the caches from every receiver store.  The
source issues the per-store fetches concurrently and joins them with
`Promise.all`; each response is processed atomically on the single JS
thread, so the merged effect is a sequence of per-store arms in arrival
order, modelled here in list order. -/
def fetchIFSCs (cfg : Config) : St → Except String Unit × St :=
  fun s =>
    (Except.ok (),
      (cfg.receiverApiBaseUrls.foldl (fun s b => (fetchIFSCsFrom b s).2) s))

/-- `fetchDocument`: a `GET` whose errors are caught, returning `[]`. -/
def fetchDocument (base coll : String) : St → Except String (List FireDoc) × St :=
  tryCatchE (axiosGet base coll) (fun _ s => (Except.ok [], s))

/-- Resolve the receiver's store base URL through `ifscCache` then
`apiByIfsc` (the two early `return false` checks of the source are the
two `none` cases of this lookup chain). -/
def resolveReceiverBase (s : St) (acct : String) : Option String :=
  match mget acct s.ifscCache with
  | none => none
  | some p => mget p.ifscCode s.apiByIfsc

/-- `validateBankAccount(acct_number, isSender)`: the account exists in
the resolved store's `bank_account` collection.  Every failure — cache
miss, unmapped IFSC, fetch error, account absent — yields `false`. -/
def validateBankAccount (cfg : Config) (acct : String) (isSender : Bool) :
    St → Except String Bool × St :=
  tryCatchE
    (fun s =>
      match (if isSender then some cfg.senderApi else resolveReceiverBase s acct) with
      | none => (Except.ok false, s)
      | some base =>
        (ebind (fetchDocument base "bank_account") fun docs s₁ =>
          match findAccountDoc docs acct with
          | none => (Except.ok false, s₁)
          | some _ => (Except.ok true, s₁)) s)
    (fun _ s => (Except.ok false, s))

/-- `updateBankAccount(acct_number, amount, isSender)`: re-fetch the
account, compute `newBalance = currentBalance + amount`, and `PATCH`
only `acct_bal` (via `updateMask.fieldPaths`).  Returns `false` on any
failure.  (A document whose `acct_bal` is not an `integerValue` would
make the source compute `NaN` and issue a patch the store rejects; that
malformed corner is modelled as the same `false` result.) -/
def updateBankAccount (cfg : Config) (acct : String) (amount : Int) (isSender : Bool) :
    St → Except String Bool × St :=
  tryCatchE
    (fun s =>
      match (if isSender then some cfg.senderApi else resolveReceiverBase s acct) with
      | none => (Except.ok false, s)
      | some base =>
        (ebind (fetchDocument base "bank_account") fun docs s₁ =>
          match findAccountDoc docs acct with
          | none => (Except.ok false, s₁)
          | some account =>
            match integerValueOf (account.get "acct_bal") with
            | none => (Except.ok false, s₁)
            | some cur =>
              (ebind (axiosPatch base (lastSegment account.name)
                        [("acct_bal", FireValue.int (cur + amount))] (some ["acct_bal"]))
                (fun _ => epure true)) s₁) s)
    (fun _ s => (Except.ok false, s))

/-- `createTransaction`: post the record to every receiver store's
`transaction_history`; each store's failure is caught and logged, so the
fan-out as a whole always resolves. -/
def createTransaction (cfg : Config) (senderAcct receiverAcct : String) (amount : Int) :
    St → Except String Unit × St :=
  fun s =>
    (Except.ok (),
      cfg.receiverApiBaseUrls.foldl
        (fun s b =>
          ((tryCatchE (axiosPost b ⟨senderAcct, receiverAcct, amount⟩)
              (fun _ s => (Except.ok (), s))) s).2)
        s)

/-- The terminal console message of each `transferMoney` run.  The source
returns `undefined` on every path and distinguishes outcomes only by the
message it logs; this type names those terminal messages. -/
inductive TransferResult where
  /-- "Transfer aborted: Sender account not found in bank_account." -/
  | senderNotFound
  /-- "Transfer aborted: Sender IFSC validation failed in lite_profile." -/
  | senderIfscMismatch
  /-- "Transfer aborted: Receiver account not found in bank_account." -/
  | receiverNotFound
  /-- "Transfer aborted: Receiver IFSC validation failed in lite_profile." -/
  | receiverIfscMismatch
  /-- "Transfer aborted: Unable to deduct sender's balance." -/
  | debitFailed
  /-- "Transfer aborted: Unable to update receiver's balance. Rolled back
  sender's balance." — logged whether or not the rollback patch succeeded. -/
  | creditFailedRolledBack
  /-- "Transfer successful: ..." -/
  | success
deriving DecidableEq, Repr

/-- `transferMoney(senderAcct, senderIfsc, receiverAcct, receiverIfsc,
amount)`: the saga orchestrator, step for step as in the source.  Note
that the compensating `updateBankAccount` call's result is discarded
(`await this.updateBankAccount(senderAcct, amount, true);` with no check). -/
def transferMoney (cfg : Config) (senderAcct senderIfsc receiverAcct receiverIfsc : String)
    (amount : Int) : St → Except String TransferResult × St :=
  ebind (validateBankAccount cfg senderAcct true) fun senderValid =>
    if !senderValid then epure TransferResult.senderNotFound else
    fun s =>
      match mget senderAcct s.ifscCache with
      | none => (Except.ok TransferResult.senderIfscMismatch, s)
      | some sp =>
        if sp.ifscCode ≠ senderIfsc then (Except.ok TransferResult.senderIfscMismatch, s)
        else
          (ebind (validateBankAccount cfg receiverAcct false) fun receiverValid =>
            if !receiverValid then epure TransferResult.receiverNotFound else
            fun s₂ =>
              match mget receiverAcct s₂.ifscCache with
              | none => (Except.ok TransferResult.receiverIfscMismatch, s₂)
              | some rp =>
                if rp.ifscCode ≠ receiverIfsc then
                  (Except.ok TransferResult.receiverIfscMismatch, s₂)
                else
                  (ebind (updateBankAccount cfg senderAcct (-amount) true)
                    fun senderUpdated =>
                      if !senderUpdated then epure TransferResult.debitFailed else
                      ebind (updateBankAccount cfg receiverAcct amount false)
                        fun receiverUpdated =>
                          if !receiverUpdated then
                            ebind (updateBankAccount cfg senderAcct amount true)
                              (fun _ => epure TransferResult.creditFailedRolledBack)
                          else
                            ebind (createTransaction cfg senderAcct receiverAcct amount)
                              (fun _ => epure TransferResult.success)) s₂) s

end Api

namespace Root

/-! ## `src/BankTransferAPI.js` -/

/-- One `lite_profile` document as processed by `fetchAllIFSCData`:
cached only when both `ifsc_code` (a non-empty `stringValue`) and
`acct_number` are truthy.  (In the source an integer `acct_number`
becomes a `Number` map key, which a string lookup would miss; no claim
exercises that refresh-then-lookup path, and the key is modelled by its
decimal string.) -/
def processLiteDoc (d : FireDoc) (s : St) : St :=
  match stringValueOf (d.get "ifsc_code") with
  | none => s
  | some ifsc =>
    if ifsc = "" then s
    else
      match jsOrS (stringValueOf (d.get "acct_number"))
          ((integerValueOf (d.get "acct_number")).map toString) with
      | none => s
      | some acct =>
        { s with ifscCache := mapSet s.ifscCache acct ⟨ifsc, stringValueOf (d.get "name")⟩ }

/-- `fetchAllIFSCData`: populate `ifscCache` from every receiver store;
per-store failures are caught and logged, so the outer catch (which
would rethrow) is unreachable. -/
def fetchAllIFSCData (cfg : Config) : St → Except String Unit × St :=
  fun s =>
    (Except.ok (),
      cfg.receiverApiBaseUrls.foldl
        (fun s b =>
          ((tryCatchE
              (ebind (axiosGet b "lite_profile") fun docs s =>
                (Except.ok (), docs.foldl (fun s d => processLiteDoc d s) s))
              (fun _ s => (Except.ok (), s))) s).2)
        s)

/-- The record `fetchBankAccount` returns.  `balance` is
`parseInt(data.acct_balance?.integerValue)`: `none` models the `NaN`
produced when the field is missing or not an integer; `status` is
`data.acct_status?.stringValue`. -/
structure SenderAccount where
  id : String
  balance : Option Int
  status : Option String
deriving DecidableEq, Repr

/-- This variant matches accounts only through
`data.acct_number?.integerValue == accountNumber` (loose equality). -/
def findAccountDocB (docs : List FireDoc) (acct : String) : Option FireDoc :=
  docs.find? fun d =>
    match integerValueOf (d.get "acct_number") with
    | some n => toString n == acct
    | none => false

/-- `fetchBankAccount(accountNumber)`.  Both an `axios` error and the
in-`try` `throw new Error("Sender bank account not found")` are caught
by the method's own `catch`, which rethrows
`"Failed to fetch bank account"`. -/
def fetchBankAccount (cfg : Config) (acct : String) :
    St → Except String SenderAccount × St :=
  tryCatchE
    (ebind (axiosGet cfg.senderApi "bank_account") fun docs s =>
      match findAccountDocB docs acct with
      | some d =>
        (Except.ok ⟨lastSegment d.name, integerValueOf (d.get "acct_balance"),
            stringValueOf (d.get "acct_status")⟩, s)
      | none => (Except.error "Sender bank account not found", s))
    (fun _ s => (Except.error "Failed to fetch bank account", s))

/-- The five distinct validation failures `validateTransfer` can throw,
in source order. -/
inductive VReason where
  | notFound
  | routingMismatch
  | nameMismatch
  | inactive
  | insufficientFunds
deriving DecidableEq, Repr

/-- The exact `Error` message thrown for each reason. -/
def vmsg : VReason → String
  | VReason.notFound => "Receiver account number not found in IFSC database"
  | VReason.routingMismatch => "Receiver IFSC code mismatch"
  | VReason.nameMismatch => "Receiver name mismatch"
  | VReason.inactive => "Sender account is not active"
  | VReason.insufficientFunds => "Insufficient balance in sender account"

/-- `senderAccount.balance < amount` where the balance may be `NaN`
(every comparison with `NaN` is false). -/
def balLt (b : Option Int) (amount : Int) : Bool :=
  match b with
  | some n => decide (n < amount)
  | none => false

/-- `validateTransfer(senderAccount, receiverAccountNumber, receiverIFSC,
receiverName, amount)`: the five checks in source order, short-circuiting
on the first failure; `none` means all checks passed. -/
def validateTransfer (cache : List (String × Profile)) (senderAccount : SenderAccount)
    (receiverAccountNumber receiverIFSC receiverName : String) (amount : Int) :
    Option VReason :=
  match mget receiverAccountNumber cache with
  | none => some VReason.notFound
  | some receiverDetails =>
    if receiverDetails.ifscCode ≠ receiverIFSC then some VReason.routingMismatch
    else if receiverDetails.name ≠ some receiverName then some VReason.nameMismatch
    else if senderAccount.status ≠ some "active" then some VReason.inactive
    else if balLt senderAccount.balance amount then some VReason.insufficientFunds
    else none

/-- `updateBankAccount(accountId, newBalance)`: a `PATCH` of
`{ fields: { acct_balance: ... } }` with **no** `updateMask`, so the
store replaces the document's whole field set.  A `NaN` balance (`none`)
is a request the store rejects.  Any failure rethrows
`"Failed to update bank account"`. -/
def updateBankAccount (cfg : Config) (accountId : String) (newBalance : Option Int) :
    St → Except String Unit × St :=
  tryCatchE
    (fun s =>
      match newBalance with
      | none => (Except.error "invalid balance", s)
      | some nb =>
        axiosPatch cfg.senderApi accountId [("acct_balance", FireValue.int nb)] none s)
    (fun _ s => (Except.error "Failed to update bank account", s))

/-- `createTransaction`: fan the record out to every receiver store's
`transaction_history`, swallowing per-store failures. -/
def createTransaction (cfg : Config) (sender receiver : String) (amount : Int) :
    St → Except String Unit × St :=
  fun s =>
    (Except.ok (),
      cfg.receiverApiBaseUrls.foldl
        (fun s b =>
          ((tryCatchE (axiosPost b ⟨sender, receiver, amount⟩)
              (fun _ s => (Except.ok (), s))) s).2)
        s)

/-- The outcome of this variant's `transferMoney`: the success log, or
the `catch` block's `"Transfer failed:" + error.message` log. -/
inductive TransferOutcome where
  | success
  | failed (msg : String)
deriving DecidableEq, Repr

/-- `transferMoney(senderAccountNumber, receiverAccountNumber,
receiverIFSC, receiverName, amount)`: refresh the cache if empty, fetch
the sender account, validate, debit the sender, record the transaction.
This variant never credits the receiver.  The whole body is wrapped in
`try`/`catch`; the catch only logs. -/
def transferMoney (cfg : Config)
    (senderAccountNumber receiverAccountNumber receiverIFSC receiverName : String)
    (amount : Int) : St → Except String TransferOutcome × St :=
  tryCatchE
    (ebind
      (fun s =>
        if s.ifscCache.isEmpty then fetchAllIFSCData cfg s else (Except.ok (), s))
      fun _ =>
        ebind (fetchBankAccount cfg senderAccountNumber) fun senderAccount s =>
          match validateTransfer s.ifscCache senderAccount receiverAccountNumber
              receiverIFSC receiverName amount with
          | some r => (Except.error (vmsg r), s)
          | none =>
            (ebind (updateBankAccount cfg senderAccount.id
                      (senderAccount.balance.map fun b => b - amount))
              fun _ =>
                ebind (createTransaction cfg senderAccountNumber receiverAccountNumber
                    amount)
                  (fun _ => epure TransferOutcome.success)) s)
    (fun e s => (Except.ok (TransferOutcome.failed e), s))

end Root

/-! ## Run lemmas for `Api` -/

theorem storedBalance_congr (s₁ s₂ : St) (base acct : String)
    (h : bankOf s₁ base = bankOf s₂ base) :
    storedBalance s₁ base acct = storedBalance s₂ base acct := by
  unfold storedBalance
  rw [h]

theorem getColl_bank (db : StoreDB) : getColl db "bank_account" = db.bankAccount := rfl

theorem getColl_lite (db : StoreDB) : getColl db "lite_profile" = db.liteProfile := rfl

/-- A sender-side `validateBankAccount` whose `GET` succeeds reports
whether the account is found and only advances the call counter. -/
theorem validate_sender_run (cfg : Config) (acct : String) (s : St) (sdb : StoreDB)
    (hdb : mget cfg.senderApi s.dbs = some sdb)
    (hok : nelem s.callIdx s.faults = false) :
    Api.validateBankAccount cfg acct true s =
      (Except.ok (findAccountDoc sdb.bankAccount acct).isSome,
       { s with callIdx := s.callIdx + 1 }) := by
  simp only [Api.validateBankAccount, Api.fetchDocument, tryCatchE, ebind, axiosGet,
    takeCall, getColl_bank, hok, hdb, Bool.false_eq_true, if_false, if_true]
  cases h : findAccountDoc sdb.bankAccount acct <;> simp [h]

/-- A receiver-side `validateBankAccount` that resolves a store and whose
`GET` succeeds reports whether the account is found. -/
theorem validate_receiver_run (cfg : Config) (acct : String) (s : St)
    (rbase : String) (rdb : StoreDB)
    (hres : Api.resolveReceiverBase s acct = some rbase)
    (hdb : mget rbase s.dbs = some rdb)
    (hok : nelem s.callIdx s.faults = false) :
    Api.validateBankAccount cfg acct false s =
      (Except.ok (findAccountDoc rdb.bankAccount acct).isSome,
       { s with callIdx := s.callIdx + 1 }) := by
  simp only [Api.validateBankAccount, Api.fetchDocument, tryCatchE, ebind, axiosGet,
    takeCall, getColl_bank, hres, hok, hdb, Bool.false_eq_true, if_false, if_true]
  cases h : findAccountDoc rdb.bankAccount acct <;> simp [h]

/-- `validateBankAccount` either leaves the state unchanged or advances
only the call counter: it never mutates a store, a cache, or a log. -/
theorem validate_state (cfg : Config) (acct : String) (isSender : Bool) (s : St) :
    (Api.validateBankAccount cfg acct isSender s).2 = s ∨
    (Api.validateBankAccount cfg acct isSender s).2 = { s with callIdx := s.callIdx + 1 } := by
  simp only [Api.validateBankAccount, Api.fetchDocument, tryCatchE, ebind, axiosGet, takeCall]
  cases hb : (if isSender then some cfg.senderApi else Api.resolveReceiverBase s acct) with
  | none => left; rfl
  | some base =>
    simp only
    cases hf : nelem s.callIdx s.faults
    · simp only [Bool.false_eq_true, if_false]
      cases hd : mget base s.dbs with
      | none => right; rfl
      | some db =>
        cases hfind : findAccountDoc (getColl db "bank_account") acct <;>
          (right; simp only [hfind])
    · simp only [if_true]
      right; rfl

/-- `validateBankAccount` always resolves (its whole body is wrapped in
`try`/`catch` returning `false`). -/
theorem validate_ok (cfg : Config) (acct : String) (isSender : Bool) (s : St) :
    ∃ b s₁, Api.validateBankAccount cfg acct isSender s = (Except.ok b, s₁) := by
  simp only [Api.validateBankAccount, Api.fetchDocument, tryCatchE, ebind, axiosGet, takeCall]
  cases hb : (if isSender then some cfg.senderApi else Api.resolveReceiverBase s acct) with
  | none => exact ⟨false, s, rfl⟩
  | some base =>
    simp only
    cases hf : nelem s.callIdx s.faults
    · simp only [Bool.false_eq_true, if_false]
      cases hd : mget base s.dbs with
      | none => exact ⟨false, _, rfl⟩
      | some db =>
        cases hfind : findAccountDoc (getColl db "bank_account") acct <;>
          simp only [hfind] <;> exact ⟨_, _, rfl⟩
    · simp only [if_true]
      exact ⟨false, _, rfl⟩

theorem find?_map_of_pred (f : FireDoc → FireDoc) (p : FireDoc → Bool)
    (hp : ∀ d, p (f d) = p d) (l : List FireDoc) :
    (l.map f).find? p = (l.find? p).map f := by
  induction l with
  | nil => rfl
  | cons d rest ih =>
    simp only [List.map_cons, List.find?, hp d]
    cases hpd : p d <;> simp [ih]

/-- A balance patch (masked to `acct_bal`) changes no document's
`acct_number`, so the account lookup that found `doc` before the patch
finds the same document — patched when its id matches — afterwards. -/
theorem findAccountDoc_patchDocIn (db : StoreDB) (acct docId : String) (v : FireValue)
    (doc : FireDoc) (hfind : findAccountDoc db.bankAccount acct = some doc) :
    findAccountDoc
        (patchDocIn db docId [("acct_bal", v)] (some ["acct_bal"])).bankAccount acct =
      some (if lastSegment doc.name = docId
        then applyPatch doc [("acct_bal", v)] (some ["acct_bal"]) else doc) := by
  have hp : ∀ d : FireDoc,
      (acctNumberKey
        ((if lastSegment d.name = docId
          then applyPatch d [("acct_bal", v)] (some ["acct_bal"]) else d).get "acct_number")
        == some acct)
      = (acctNumberKey (d.get "acct_number") == some acct) := by
    intro d
    by_cases h : lastSegment d.name = docId
    · rw [if_pos h, applyPatch_get_other _ _ _ _ (by decide)]
    · rw [if_neg h]
  unfold findAccountDoc at hfind ⊢
  unfold patchDocIn
  rw [find?_map_of_pred _ _ hp db.bankAccount, hfind]
  rfl

/-- The patched document's stored balance is the written value. -/
theorem integerValueOf_patched (doc : FireDoc) (n : Int) :
    integerValueOf
      ((applyPatch doc [("acct_bal", FireValue.int n)] (some ["acct_bal"])).get "acct_bal") =
      some n := by
  rw [applyPatch_get_bal]
  rfl

/-- `updateBankAccount` when everything succeeds: the resolved store's
account document gets its masked balance patch, the attempt is recorded,
and the method returns `true`. -/
theorem update_run_ok (cfg : Config) (acct : String) (amount : Int) (isSender : Bool)
    (s : St) (base : String) (db : StoreDB) (doc : FireDoc) (cur : Int)
    (hbase : (if isSender then some cfg.senderApi else Api.resolveReceiverBase s acct) =
      some base)
    (hdb : mget base s.dbs = some db)
    (hdoc : findAccountDoc db.bankAccount acct = some doc)
    (hcur : integerValueOf (doc.get "acct_bal") = some cur)
    (h₀ : nelem s.callIdx s.faults = false)
    (h₁ : nelem (s.callIdx + 1) s.faults = false) :
    Api.updateBankAccount cfg acct amount isSender s =
      (Except.ok true,
       { s with callIdx := s.callIdx + 2,
                patches := s.patches ++ [⟨base, lastSegment doc.name,
                  [("acct_bal", FireValue.int (cur + amount))], some ["acct_bal"]⟩],
                dbs := mapSet s.dbs base (patchDocIn db (lastSegment doc.name)
                  [("acct_bal", FireValue.int (cur + amount))] (some ["acct_bal"])) }) := by
  simp only [Api.updateBankAccount, Api.fetchDocument, tryCatchE, ebind, epure, axiosGet,
    axiosPatch, takeCall, getColl_bank, hbase, hdb, hdoc, hcur, h₀, h₁,
    Bool.false_eq_true, if_false]

/-- `updateBankAccount` when the `GET` succeeds but the `PATCH` call
faults: the attempt is recorded, no store changes, and the method
returns `false`. -/
theorem update_run_patchFault (cfg : Config) (acct : String) (amount : Int)
    (isSender : Bool) (s : St) (base : String) (db : StoreDB) (doc : FireDoc) (cur : Int)
    (hbase : (if isSender then some cfg.senderApi else Api.resolveReceiverBase s acct) =
      some base)
    (hdb : mget base s.dbs = some db)
    (hdoc : findAccountDoc db.bankAccount acct = some doc)
    (hcur : integerValueOf (doc.get "acct_bal") = some cur)
    (h₀ : nelem s.callIdx s.faults = false)
    (h₁ : nelem (s.callIdx + 1) s.faults = true) :
    Api.updateBankAccount cfg acct amount isSender s =
      (Except.ok false,
       { s with callIdx := s.callIdx + 2,
                patches := s.patches ++ [⟨base, lastSegment doc.name,
                  [("acct_bal", FireValue.int (cur + amount))], some ["acct_bal"]⟩] }) := by
  simp only [Api.updateBankAccount, Api.fetchDocument, tryCatchE, ebind, epure, axiosGet,
    axiosPatch, takeCall, getColl_bank, hbase, hdb, hdoc, hcur, h₀, h₁,
    Bool.false_eq_true, if_false, if_true]

/-- `updateBankAccount` always resolves: every failure mode ends in the
method's own `catch` or an early `return false`. -/
theorem update_ok (cfg : Config) (acct : String) (amount : Int) (isSender : Bool) (s : St) :
    ∃ b s₁, Api.updateBankAccount cfg acct amount isSender s = (Except.ok b, s₁) := by
  simp only [Api.updateBankAccount, Api.fetchDocument, tryCatchE, ebind, epure, axiosGet,
    axiosPatch, takeCall]
  cases hb : (if isSender then some cfg.senderApi else Api.resolveReceiverBase s acct) with
  | none => exact ⟨false, s, rfl⟩
  | some base =>
    simp only
    cases hf : nelem s.callIdx s.faults
    · simp only [Bool.false_eq_true, if_false]
      cases hd : mget base s.dbs with
      | none =>
        simp only
        cases hfind : findAccountDoc [] acct with
        | none => exact ⟨false, _, rfl⟩
        | some doc => simp [findAccountDoc] at hfind
      | some db =>
        simp only
        cases hfind : findAccountDoc (getColl db "bank_account") acct with
        | none => simp only [hfind]; exact ⟨false, _, rfl⟩
        | some doc =>
          simp only [hfind]
          cases hcur : integerValueOf (doc.get "acct_bal") with
          | none => exact ⟨false, _, rfl⟩
          | some cur =>
            simp only
            cases hf₁ : nelem (s.callIdx + 1) s.faults
            · simp only [Bool.false_eq_true, if_false]
              cases hd₁ : mget base s.dbs with
              | none => simp only [hd₁]; exact ⟨false, _, rfl⟩
              | some db₁ => simp only [hd₁]; exact ⟨true, _, rfl⟩
            · simp only [if_true]
              exact ⟨false, _, rfl⟩
    · simp only [if_true]
      cases hfind : findAccountDoc [] acct with
      | none => simp only [hfind]; exact ⟨false, _, rfl⟩
      | some doc => simp [findAccountDoc] at hfind

/-- One fan-out arm (`POST` + its `catch`): records the attempt, touches
no `bank_account` collection, no patch log, and no cache. -/
theorem postStep_state (b : String) (t : TxRecord) (s : St) :
    (∀ base,
      bankOf ((tryCatchE (axiosPost b t) fun _ s => (Except.ok (), s)) s).2 base =
        bankOf s base) ∧
    ((tryCatchE (axiosPost b t) fun _ s => (Except.ok (), s)) s).2.patches = s.patches ∧
    ((tryCatchE (axiosPost b t) fun _ s => (Except.ok (), s)) s).2.historyPosts =
      s.historyPosts ++ [b] ∧
    ((tryCatchE (axiosPost b t) fun _ s => (Except.ok (), s)) s).2.ifscCache = s.ifscCache ∧
    ((tryCatchE (axiosPost b t) fun _ s => (Except.ok (), s)) s).2.apiByIfsc = s.apiByIfsc := by
  simp only [tryCatchE, axiosPost, takeCall]
  cases hf : nelem s.callIdx s.faults
  · simp only [Bool.false_eq_true, if_false]
    cases hd : mget b s.dbs with
    | none => exact ⟨fun _ => rfl, by simp, by simp, by simp, by simp⟩
    | some db =>
      simp only
      refine ⟨fun base => ?_, by simp, by simp, by simp, by simp⟩
      unfold bankOf
      simp only [mget_mapSet]
      by_cases hbb : base = b
      · rw [if_pos hbb, hbb, hd]
        rfl
      · rw [if_neg hbb]
  · exact ⟨fun _ => rfl, by simp, by simp, by simp, by simp⟩

/-- The whole fan-out fold: one attempt per receiver store, in order; no
`bank_account` collection, patch log, or cache is touched. -/
theorem postFold_state (t : TxRecord) (urls : List String) (s : St) :
    (∀ base,
      bankOf (urls.foldl
        (fun s b => ((tryCatchE (axiosPost b t) fun _ s => (Except.ok (), s)) s).2) s) base =
        bankOf s base) ∧
    (urls.foldl (fun s b => ((tryCatchE (axiosPost b t) fun _ s => (Except.ok (), s)) s).2)
        s).patches = s.patches ∧
    (urls.foldl (fun s b => ((tryCatchE (axiosPost b t) fun _ s => (Except.ok (), s)) s).2)
        s).historyPosts = s.historyPosts ++ urls ∧
    (urls.foldl (fun s b => ((tryCatchE (axiosPost b t) fun _ s => (Except.ok (), s)) s).2)
        s).ifscCache = s.ifscCache ∧
    (urls.foldl (fun s b => ((tryCatchE (axiosPost b t) fun _ s => (Except.ok (), s)) s).2)
        s).apiByIfsc = s.apiByIfsc := by
  induction urls generalizing s with
  | nil => simp
  | cons b rest ih =>
    simp only [List.foldl_cons]
    obtain ⟨h1, h2, h3, h4, h5⟩ := postStep_state b t s
    obtain ⟨g1, g2, g3, g4, g5⟩ := ih ((tryCatchE (axiosPost b t) fun _ s =>
      (Except.ok (), s)) s).2
    refine ⟨fun base => (g1 base).trans (h1 base), g2.trans h2, ?_, g4.trans h4, g5.trans h5⟩
    rw [g3, h3, List.append_assoc]
    rfl

/-- `Api.createTransaction` always resolves, attempts exactly one history
append per registered receiver store (in registration order), and leaves
every `bank_account` collection and the patch log untouched. -/
theorem createTransaction_state (cfg : Config) (a r : String) (amt : Int) (s : St) :
    (Api.createTransaction cfg a r amt s).1 = Except.ok () ∧
    (∀ base, bankOf (Api.createTransaction cfg a r amt s).2 base = bankOf s base) ∧
    (Api.createTransaction cfg a r amt s).2.patches = s.patches ∧
    (Api.createTransaction cfg a r amt s).2.historyPosts =
      s.historyPosts ++ cfg.receiverApiBaseUrls := by
  obtain ⟨h1, h2, h3, _, _⟩ := postFold_state ⟨a, r, amt⟩ cfg.receiverApiBaseUrls s
  exact ⟨rfl, h1, h2, h3⟩

/-- Master run of `Api.transferMoney` on the happy path: both accounts
validate, both balance patches succeed (the first six network calls are
fault-free; the fan-out calls are unconstrained).  The run reaches the
fan-out in a state `s₄` holding the debited sender balance and the
credited receiver balance. -/
theorem transfer_happy_master (cfg : Config) (A aI R rI : String) (amt : Int) (s : St)
    (sdb rdb : StoreDB) (sdoc rdoc : FireDoc) (sp rp : Profile) (rbase : String)
    (sb rb : Int)
    (hsdb : mget cfg.senderApi s.dbs = some sdb)
    (hsdoc : findAccountDoc sdb.bankAccount A = some sdoc)
    (hsbal : integerValueOf (sdoc.get "acct_bal") = some sb)
    (hspA : mget A s.ifscCache = some sp)
    (hspI : sp.ifscCode = aI)
    (hrpR : mget R s.ifscCache = some rp)
    (hrpI : rp.ifscCode = rI)
    (hrbase : mget rp.ifscCode s.apiByIfsc = some rbase)
    (hrdb : mget rbase s.dbs = some rdb)
    (hrdoc : findAccountDoc rdb.bankAccount R = some rdoc)
    (hrbal : integerValueOf (rdoc.get "acct_bal") = some rb)
    (hsep : rbase ≠ cfg.senderApi)
    (hc0 : nelem s.callIdx s.faults = false)
    (hc1 : nelem (s.callIdx + 1) s.faults = false)
    (hc2 : nelem (s.callIdx + 2) s.faults = false)
    (hc3 : nelem (s.callIdx + 3) s.faults = false)
    (hc4 : nelem (s.callIdx + 4) s.faults = false)
    (hc5 : nelem (s.callIdx + 5) s.faults = false) :
    ∃ s₄ : St,
      Api.transferMoney cfg A aI R rI amt s =
        (Except.ok Api.TransferResult.success, (Api.createTransaction cfg A R amt s₄).2) ∧
      s₄.historyPosts = s.historyPosts ∧
      storedBalance s₄ cfg.senderApi A = some (sb + -amt) ∧
      storedBalance s₄ rbase R = some (rb + amt) := by
  have hv1 : Api.validateBankAccount cfg A true s =
      (Except.ok (findAccountDoc sdb.bankAccount A).isSome,
       { s with callIdx := s.callIdx + 1 }) :=
    validate_sender_run cfg A s sdb hsdb hc0
  have hres : Api.resolveReceiverBase { s with callIdx := s.callIdx + 1 } R = some rbase := by
    simp only [Api.resolveReceiverBase, hrpR, hrbase]
  have hv2 : Api.validateBankAccount cfg R false { s with callIdx := s.callIdx + 1 } =
      (Except.ok (findAccountDoc rdb.bankAccount R).isSome,
       { s with callIdx := s.callIdx + 2 }) :=
    validate_receiver_run cfg R { s with callIdx := s.callIdx + 1 } rbase rdb hres hrdb hc1
  have hdebit : Api.updateBankAccount cfg A (-amt) true { s with callIdx := s.callIdx + 2 } =
      (Except.ok true,
       { s with callIdx := s.callIdx + 4,
                patches := s.patches ++ [⟨cfg.senderApi, lastSegment sdoc.name,
                  [("acct_bal", FireValue.int (sb + -amt))], some ["acct_bal"]⟩],
                dbs := mapSet s.dbs cfg.senderApi (patchDocIn sdb (lastSegment sdoc.name)
                  [("acct_bal", FireValue.int (sb + -amt))] (some ["acct_bal"])) }) :=
    update_run_ok cfg A (-amt) true { s with callIdx := s.callIdx + 2 } cfg.senderApi
      sdb sdoc sb rfl hsdb hsdoc hsbal hc2 hc3
  have hres₃ : Api.resolveReceiverBase
      { s with callIdx := s.callIdx + 4,
               patches := s.patches ++ [⟨cfg.senderApi, lastSegment sdoc.name,
                 [("acct_bal", FireValue.int (sb + -amt))], some ["acct_bal"]⟩],
               dbs := mapSet s.dbs cfg.senderApi (patchDocIn sdb (lastSegment sdoc.name)
                 [("acct_bal", FireValue.int (sb + -amt))] (some ["acct_bal"])) } R =
      some rbase := by
    simp only [Api.resolveReceiverBase, hrpR, hrbase]
  have hdb₃ : mget rbase (mapSet s.dbs cfg.senderApi (patchDocIn sdb (lastSegment sdoc.name)
      [("acct_bal", FireValue.int (sb + -amt))] (some ["acct_bal"]))) = some rdb := by
    rw [mget_mapSet, if_neg hsep, hrdb]
  have hcredit : Api.updateBankAccount cfg R amt false
      { s with callIdx := s.callIdx + 4,
               patches := s.patches ++ [⟨cfg.senderApi, lastSegment sdoc.name,
                 [("acct_bal", FireValue.int (sb + -amt))], some ["acct_bal"]⟩],
               dbs := mapSet s.dbs cfg.senderApi (patchDocIn sdb (lastSegment sdoc.name)
                 [("acct_bal", FireValue.int (sb + -amt))] (some ["acct_bal"])) } =
      (Except.ok true,
       { s with callIdx := s.callIdx + 6,
                patches := (s.patches ++ [⟨cfg.senderApi, lastSegment sdoc.name,
                    [("acct_bal", FireValue.int (sb + -amt))], some ["acct_bal"]⟩]) ++
                  [⟨rbase, lastSegment rdoc.name,
                    [("acct_bal", FireValue.int (rb + amt))], some ["acct_bal"]⟩],
                dbs := mapSet (mapSet s.dbs cfg.senderApi
                    (patchDocIn sdb (lastSegment sdoc.name)
                      [("acct_bal", FireValue.int (sb + -amt))] (some ["acct_bal"]))) rbase
                  (patchDocIn rdb (lastSegment rdoc.name)
                    [("acct_bal", FireValue.int (rb + amt))] (some ["acct_bal"])) }) :=
    update_run_ok cfg R amt false
      { s with callIdx := s.callIdx + 4,
               patches := s.patches ++ [⟨cfg.senderApi, lastSegment sdoc.name,
                 [("acct_bal", FireValue.int (sb + -amt))], some ["acct_bal"]⟩],
               dbs := mapSet s.dbs cfg.senderApi (patchDocIn sdb (lastSegment sdoc.name)
                 [("acct_bal", FireValue.int (sb + -amt))] (some ["acct_bal"])) }
      rbase rdb rdoc rb hres₃ hdb₃ hrdoc hrbal hc4 hc5
  refine ⟨({ s with
             callIdx := s.callIdx + 6,
             patches := (s.patches ++ [⟨cfg.senderApi, lastSegment sdoc.name,
                 [("acct_bal", FireValue.int (sb + -amt))], some ["acct_bal"]⟩]) ++
               [⟨rbase, lastSegment rdoc.name,
                 [("acct_bal", FireValue.int (rb + amt))], some ["acct_bal"]⟩],
             dbs := mapSet (mapSet s.dbs cfg.senderApi
                 (patchDocIn sdb (lastSegment sdoc.name)
                   [("acct_bal", FireValue.int (sb + -amt))] (some ["acct_bal"]))) rbase
               (patchDocIn rdb (lastSegment rdoc.name)
                 [("acct_bal", FireValue.int (rb + amt))] (some ["acct_bal"])) } : St),
      ?_, rfl, ?_, ?_⟩
  · simp only [Api.transferMoney, ebind, epure]
    rw [hv1]
    simp only [hsdoc, Option.isSome_some, Bool.not_true, Bool.false_eq_true, if_false, hspA]
    rw [if_neg (show ¬ sp.ifscCode ≠ aI from fun h => h hspI)]
    try simp only [ebind, epure]
    rw [hv2]
    simp only [hrdoc, Option.isSome_some, Bool.not_true, Bool.false_eq_true, if_false, hrpR]
    rw [if_neg (show ¬ rp.ifscCode ≠ rI from fun h => h hrpI)]
    try simp only [ebind, epure]
    rw [hdebit]
    simp only [Bool.not_true, Bool.false_eq_true, if_false, ebind, epure]
    rw [hcredit]
    simp only [Bool.not_true, Bool.false_eq_true, if_false, ebind, epure,
      Api.createTransaction]
  · unfold storedBalance bankOf
    rw [show (mget cfg.senderApi (mapSet (mapSet s.dbs cfg.senderApi
        (patchDocIn sdb (lastSegment sdoc.name)
          [("acct_bal", FireValue.int (sb + -amt))] (some ["acct_bal"]))) rbase
        (patchDocIn rdb (lastSegment rdoc.name)
          [("acct_bal", FireValue.int (rb + amt))] (some ["acct_bal"])))) =
      some (patchDocIn sdb (lastSegment sdoc.name)
        [("acct_bal", FireValue.int (sb + -amt))] (some ["acct_bal"])) from by
      rw [mget_mapSet, if_neg (fun h => hsep h.symm), mget_mapSet, if_pos rfl]]
    simp only [Option.map]
    rw [findAccountDoc_patchDocIn _ _ _ _ _ hsdoc, if_pos rfl]
    simp only [integerValueOf_patched]
  · unfold storedBalance bankOf
    rw [show (mget rbase (mapSet (mapSet s.dbs cfg.senderApi
        (patchDocIn sdb (lastSegment sdoc.name)
          [("acct_bal", FireValue.int (sb + -amt))] (some ["acct_bal"]))) rbase
        (patchDocIn rdb (lastSegment rdoc.name)
          [("acct_bal", FireValue.int (rb + amt))] (some ["acct_bal"])))) =
      some (patchDocIn rdb (lastSegment rdoc.name)
        [("acct_bal", FireValue.int (rb + amt))] (some ["acct_bal"])) from by
      rw [mget_mapSet, if_pos rfl]]
    simp only [Option.map]
    rw [findAccountDoc_patchDocIn _ _ _ _ _ hrdoc, if_pos rfl]
    simp only [integerValueOf_patched]

/-! ## Concrete worlds used by witnesses and counterexamples -/

/-- A sender account document with the given balance (account number
`S1`, plus the unrelated fields `cust_id` and `acct_name`). -/
def senderDocW (bal : Int) : FireDoc :=
  ⟨"projects/p/databases/d/documents/bank_account/SDOC1",
   [("acct_number", FireValue.str "S1"), ("acct_bal", FireValue.int bal),
    ("cust_id", FireValue.int 7), ("acct_name", FireValue.str "Alice")]⟩

/-- A receiver account document with the given balance (account number
`R1`). -/
def receiverDocW (bal : Int) : FireDoc :=
  ⟨"projects/q/databases/d/documents/bank_account/RDOC1",
   [("acct_number", FireValue.str "R1"), ("acct_bal", FireValue.int bal)]⟩

/-- Sender store at base URL `S`, one receiver store at base URL `R`. -/
def cfgW : Config := ⟨"S", ["R"]⟩

/-- A fully provisioned world: sender and receiver stores, both cache
entries, and a chosen fault schedule. -/
def stW (sbal rbal : Int) (faults : List Nat) : St :=
  ⟨[("S", ⟨[senderDocW sbal], [], []⟩), ("R", ⟨[receiverDocW rbal], [], []⟩)],
   faults, 0,
   [("S1", ⟨"SIF", some "Alice"⟩), ("R1", ⟨"RIF", some "Bob"⟩)],
   [("RIF", "R")], [], []⟩

/-! ## C1 — happy path: exact balance effects and fan-out attempts -/

/-- **C1.**  For every transfer request in which both the sender and the
receiver account pass validation and both balance patches succeed,
`transferMoney` leaves the sender's stored balance at `initial − amount`,
the receiver's stored balance at `initial + amount`, and attempts exactly
one history-record append per registered receiver store.  (The
hypotheses say exactly that: both accounts resolve and are found, both
IFSC checks pass, and the six saga network calls are fault-free; the
fan-out calls are unconstrained.  `rbase ≠ senderApi` states that the
receiver lives in a receiver store, the interbank situation the system
exists for.) -/
theorem C1_success_balances_and_fanout (cfg : Config) (A aI R rI : String) (amt : Int)
    (s : St) (sdb rdb : StoreDB) (sdoc rdoc : FireDoc) (sp rp : Profile) (rbase : String)
    (sb rb : Int)
    (hsdb : mget cfg.senderApi s.dbs = some sdb)
    (hsdoc : findAccountDoc sdb.bankAccount A = some sdoc)
    (hsbal : integerValueOf (sdoc.get "acct_bal") = some sb)
    (hspA : mget A s.ifscCache = some sp)
    (hspI : sp.ifscCode = aI)
    (hrpR : mget R s.ifscCache = some rp)
    (hrpI : rp.ifscCode = rI)
    (hrbase : mget rp.ifscCode s.apiByIfsc = some rbase)
    (hrdb : mget rbase s.dbs = some rdb)
    (hrdoc : findAccountDoc rdb.bankAccount R = some rdoc)
    (hrbal : integerValueOf (rdoc.get "acct_bal") = some rb)
    (hsep : rbase ≠ cfg.senderApi)
    (hc0 : nelem s.callIdx s.faults = false)
    (hc1 : nelem (s.callIdx + 1) s.faults = false)
    (hc2 : nelem (s.callIdx + 2) s.faults = false)
    (hc3 : nelem (s.callIdx + 3) s.faults = false)
    (hc4 : nelem (s.callIdx + 4) s.faults = false)
    (hc5 : nelem (s.callIdx + 5) s.faults = false) :
    (Api.transferMoney cfg A aI R rI amt s).1 = Except.ok Api.TransferResult.success ∧
    storedBalance (Api.transferMoney cfg A aI R rI amt s).2 cfg.senderApi A =
      some (sb - amt) ∧
    storedBalance (Api.transferMoney cfg A aI R rI amt s).2 rbase R = some (rb + amt) ∧
    (Api.transferMoney cfg A aI R rI amt s).2.historyPosts =
      s.historyPosts ++ cfg.receiverApiBaseUrls := by
  obtain ⟨s₄, hrun, hh, hsb', hrb'⟩ := transfer_happy_master cfg A aI R rI amt s
    sdb rdb sdoc rdoc sp rp rbase sb rb hsdb hsdoc hsbal hspA hspI hrpR hrpI hrbase
    hrdb hrdoc hrbal hsep hc0 hc1 hc2 hc3 hc4 hc5
  obtain ⟨c1, c2, c3, c4⟩ := createTransaction_state cfg A R amt s₄
  rw [hrun]
  refine ⟨rfl, ?_, ?_, ?_⟩
  · rw [storedBalance_congr _ s₄ _ _ (c2 cfg.senderApi), hsb', sub_eq_add_neg]
  · rw [storedBalance_congr _ s₄ _ _ (c2 rbase), hrb']
  · rw [c4, hh]

/-- Witness for C1 at the spec's scenario: balances 5000 and 2000,
amount 500, no faults. -/
theorem C1_witness :
    (Api.transferMoney cfgW "S1" "SIF" "R1" "RIF" 500 (stW 5000 2000 [])).1 =
      Except.ok Api.TransferResult.success ∧
    storedBalance (Api.transferMoney cfgW "S1" "SIF" "R1" "RIF" 500 (stW 5000 2000 [])).2
      cfgW.senderApi "S1" = some (5000 - 500) ∧
    storedBalance (Api.transferMoney cfgW "S1" "SIF" "R1" "RIF" 500 (stW 5000 2000 [])).2
      "R" "R1" = some (2000 + 500) ∧
    (Api.transferMoney cfgW "S1" "SIF" "R1" "RIF" 500 (stW 5000 2000 [])).2.historyPosts =
      (stW 5000 2000 []).historyPosts ++ cfgW.receiverApiBaseUrls :=
  C1_success_balances_and_fanout cfgW "S1" "SIF" "R1" "RIF" 500 (stW 5000 2000 [])
    ⟨[senderDocW 5000], [], []⟩ ⟨[receiverDocW 2000], [], []⟩
    (senderDocW 5000) (receiverDocW 2000)
    ⟨"SIF", some "Alice"⟩ ⟨"RIF", some "Bob"⟩ "R" 5000 2000
    rfl rfl rfl rfl rfl rfl rfl rfl rfl rfl rfl (by decide)
    rfl rfl rfl rfl rfl rfl

/-! ## C2 — validation failure leaves every store untouched -/

theorem validate_frame (cfg : Config) (acct : String) (isSender : Bool) (s : St) :
    (Api.validateBankAccount cfg acct isSender s).2.dbs = s.dbs ∧
    (Api.validateBankAccount cfg acct isSender s).2.patches = s.patches ∧
    (Api.validateBankAccount cfg acct isSender s).2.historyPosts = s.historyPosts ∧
    (Api.validateBankAccount cfg acct isSender s).2.ifscCache = s.ifscCache ∧
    (Api.validateBankAccount cfg acct isSender s).2.apiByIfsc = s.apiByIfsc := by
  rcases validate_state cfg acct isSender s with h | h <;> rw [h] <;>
    exact ⟨rfl, rfl, rfl, rfl, rfl⟩

/-- **C2.**  For every transfer request, no balance patch is issued to any
store unless both accounts have passed every validation check: whenever
`transferMoney` terminates in one of its four validation-abort outcomes,
the backing stores, the patch log, and the history-append log are exactly
as they were before the call.  (The only state the aborted run may have
changed is the network-call counter.) -/
theorem C2_validation_abort_no_mutation (cfg : Config) (A aI R rI : String) (amt : Int)
    (s s' : St) (r : Api.TransferResult)
    (hrun : Api.transferMoney cfg A aI R rI amt s = (Except.ok r, s'))
    (habort : r = Api.TransferResult.senderNotFound ∨
      r = Api.TransferResult.senderIfscMismatch ∨
      r = Api.TransferResult.receiverNotFound ∨
      r = Api.TransferResult.receiverIfscMismatch) :
    s'.dbs = s.dbs ∧ s'.patches = s.patches ∧ s'.historyPosts = s.historyPosts := by
  obtain ⟨b₁, s₁, h₁⟩ := validate_ok cfg A true s
  have hf₁ := validate_frame cfg A true s
  rw [h₁] at hf₁
  obtain ⟨f₁d, f₁p, f₁h, f₁c, f₁a⟩ := hf₁
  simp only [Api.transferMoney, ebind, epure] at hrun
  rw [h₁] at hrun
  cases b₁ with
  | false =>
    simp [epure] at hrun
    obtain ⟨_, hs⟩ := hrun
    subst hs
    exact ⟨f₁d, f₁p, f₁h⟩
  | true =>
    simp only [Bool.not_true, Bool.false_eq_true, if_false] at hrun
    cases hm : mget A s₁.ifscCache with
    | none =>
      simp only [hm, Prod.mk.injEq] at hrun
      obtain ⟨_, hs⟩ := hrun
      subst hs
      exact ⟨f₁d, f₁p, f₁h⟩
    | some sp =>
      simp only [hm] at hrun
      by_cases hi : sp.ifscCode ≠ aI
      · rw [if_pos hi] at hrun
        simp only [Prod.mk.injEq] at hrun
        obtain ⟨_, hs⟩ := hrun
        subst hs
        exact ⟨f₁d, f₁p, f₁h⟩
      · rw [if_neg hi] at hrun
        obtain ⟨b₂, s₂, h₂⟩ := validate_ok cfg R false s₁
        have hf₂ := validate_frame cfg R false s₁
        rw [h₂] at hf₂
        obtain ⟨f₂d, f₂p, f₂h, f₂c, f₂a⟩ := hf₂
        simp only [ebind, epure, h₂] at hrun
        cases b₂ with
        | false =>
          simp [epure] at hrun
          obtain ⟨_, hs⟩ := hrun
          subst hs
          exact ⟨f₂d.trans f₁d, f₂p.trans f₁p, f₂h.trans f₁h⟩
        | true =>
          simp only [Bool.not_true, Bool.false_eq_true, if_false] at hrun
          cases hm₂ : mget R s₂.ifscCache with
          | none =>
            simp only [hm₂, Prod.mk.injEq] at hrun
            obtain ⟨_, hs⟩ := hrun
            subst hs
            exact ⟨f₂d.trans f₁d, f₂p.trans f₁p, f₂h.trans f₁h⟩
          | some rp =>
            simp only [hm₂] at hrun
            by_cases hi₂ : rp.ifscCode ≠ rI
            · rw [if_pos hi₂] at hrun
              simp only [Prod.mk.injEq] at hrun
              obtain ⟨_, hs⟩ := hrun
              subst hs
              exact ⟨f₂d.trans f₁d, f₂p.trans f₁p, f₂h.trans f₁h⟩
            · rw [if_neg hi₂] at hrun
              obtain ⟨b₃, s₃, h₃⟩ := update_ok cfg A (-amt) true s₂
              simp only [ebind, epure, h₃] at hrun
              cases b₃ with
              | false =>
                try simp [epure] at hrun
                rcases habort with h | h | h | h <;> simp_all
              | true =>
                simp only [Bool.not_true, Bool.false_eq_true, if_false] at hrun
                obtain ⟨b₄, s₄, h₄⟩ := update_ok cfg R amt false s₃
                simp only [ebind, epure, h₄] at hrun
                cases b₄ with
                | false =>
                  try simp only [Bool.not_false, if_true] at hrun
                  obtain ⟨b₅, s₅, h₅⟩ := update_ok cfg A amt true s₄
                  try simp only [ebind, epure, h₅] at hrun
                  try simp [epure] at hrun
                  rcases habort with h | h | h | h <;> simp_all
                | true =>
                  try simp [ebind, epure, Api.createTransaction] at hrun
                  rcases habort with h | h | h | h <;> simp_all

/-- Witness for C2: a world whose cache knows no accounts at all — the
sender validates (the store document exists) but the sender IFSC check
fails, and nothing is mutated. -/
theorem C2_witness :
    (Api.transferMoney cfgW "S1" "SIF" "R1" "RIF" 500
        { stW 5000 2000 [] with ifscCache := [] }).1 =
      Except.ok Api.TransferResult.senderIfscMismatch ∧
    ((Api.transferMoney cfgW "S1" "SIF" "R1" "RIF" 500
        { stW 5000 2000 [] with ifscCache := [] }).2.dbs =
      ({ stW 5000 2000 [] with ifscCache := [] } : St).dbs ∧
     (Api.transferMoney cfgW "S1" "SIF" "R1" "RIF" 500
        { stW 5000 2000 [] with ifscCache := [] }).2.patches =
      ({ stW 5000 2000 [] with ifscCache := [] } : St).patches ∧
     (Api.transferMoney cfgW "S1" "SIF" "R1" "RIF" 500
        { stW 5000 2000 [] with ifscCache := [] }).2.historyPosts =
      ({ stW 5000 2000 [] with ifscCache := [] } : St).historyPosts) :=
  ⟨rfl,
   C2_validation_abort_no_mutation cfgW "S1" "SIF" "R1" "RIF" 500
     { stW 5000 2000 [] with ifscCache := [] } _ Api.TransferResult.senderIfscMismatch
     rfl (Or.inr (Or.inl rfl))⟩

/-! ## C9 — `transferMoney` always resolves with a result -/

/-- **C9.**  For every input and every world — any store contents, any
fault pattern — `Api.transferMoney` terminates with an `Except.ok`
result: every internal failure (network error, account not found,
missing cache entry, failed patch) is caught inside the called helper or
handled by an early return, so no exception escapes to the caller. -/
theorem C9_transferMoney_never_rejects (cfg : Config) (A aI R rI : String) (amt : Int)
    (s : St) :
    ∃ r s', Api.transferMoney cfg A aI R rI amt s = (Except.ok r, s') := by
  obtain ⟨b₁, s₁, h₁⟩ := validate_ok cfg A true s
  simp only [Api.transferMoney, ebind, epure, h₁]
  cases b₁ with
  | false => exact ⟨_, _, rfl⟩
  | true =>
    simp only [Bool.not_true, Bool.false_eq_true, if_false]
    split
    · exact ⟨_, _, rfl⟩
    · split
      · exact ⟨_, _, rfl⟩
      · obtain ⟨b₂, s₂, h₂⟩ := validate_ok cfg R false s₁
        simp only [ebind, epure, h₂]
        cases b₂ with
        | false => exact ⟨_, _, rfl⟩
        | true =>
          simp only [Bool.not_true, Bool.false_eq_true, if_false]
          split
          · exact ⟨_, _, rfl⟩
          · split
            · exact ⟨_, _, rfl⟩
            · obtain ⟨b₃, s₃, h₃⟩ := update_ok cfg A (-amt) true s₂
              simp only [ebind, epure, h₃]
              cases b₃ with
              | false => exact ⟨_, _, rfl⟩
              | true =>
                simp only [Bool.not_true, Bool.false_eq_true, if_false]
                obtain ⟨b₄, s₄, h₄⟩ := update_ok cfg R amt false s₃
                simp only [ebind, epure, h₄]
                cases b₄ with
                | false =>
                  simp only [Bool.not_false, if_true]
                  obtain ⟨b₅, s₅, h₅⟩ := update_ok cfg A amt true s₄
                  simp only [ebind, epure, h₅]
                  exact ⟨_, _, rfl⟩
                | true =>
                  simp only [Bool.not_true, Bool.false_eq_true, if_false, ebind, epure,
                    Api.createTransaction]
                  exact ⟨_, _, rfl⟩

/-! ## C10 — every cached IFSC resolves to a store base URL -/

/-- The invariant the routing lookup relies on: every `ifscCache` entry's
`ifscCode` is a key of `apiByIfsc`.  It holds trivially of the
constructor's empty caches. -/
def cacheConsistent (s : St) : Prop :=
  ∀ p ∈ s.ifscCache, (mget p.2.ifscCode s.apiByIfsc).isSome = true

theorem mem_mremove {α : Type} (m : List (String × α)) (k : String) (p : String × α)
    (h : p ∈ mremove k m) : p ∈ m := by
  induction m with
  | nil => exact absurd h (List.not_mem_nil p)
  | cons kv rest ih =>
    obtain ⟨k₁, v⟩ := kv
    by_cases hk : k₁ = k
    · rw [mremove, if_pos hk] at h
      exact List.mem_cons_of_mem _ (ih h)
    · rw [mremove, if_neg hk] at h
      rcases List.mem_cons.mp h with h | h
      · exact h ▸ List.mem_cons_self _ _
      · exact List.mem_cons_of_mem _ (ih h)

theorem cacheConsistent_congr (s₁ s₂ : St) (hc : s₁.ifscCache = s₂.ifscCache)
    (ha : s₁.apiByIfsc = s₂.apiByIfsc) (h : cacheConsistent s₂) : cacheConsistent s₁ := by
  intro p hp
  rw [hc] at hp
  rw [ha]
  exact h p hp

/-- Processing one `lite_profile` document preserves the invariant: a
cached document writes its `ifscCode` into `apiByIfsc` in the same step. -/
theorem processLiteDoc_preserves (b : String) (d : FireDoc) (s : St)
    (h : cacheConsistent s) : cacheConsistent (Api.processLiteDoc b d s) := by
  unfold Api.processLiteDoc
  cases hk : acctNumberKey (d.get "acct_number") with
  | none => exact h
  | some acct =>
    intro p hp
    rcases List.mem_cons.mp hp with hp | hp
    · subst hp
      show (mget (getStrOr (d.get "ifsc_code") "unknown")
        (mapSet s.apiByIfsc (getStrOr (d.get "ifsc_code") "unknown") b)).isSome = true
      rw [mget_mapSet, if_pos rfl]
      rfl
    · have hold := h p (mem_mremove _ _ _ hp)
      show (mget p.2.ifscCode
        (mapSet s.apiByIfsc (getStrOr (d.get "ifsc_code") "unknown") b)).isSome = true
      rw [mget_mapSet]
      by_cases he : p.2.ifscCode = getStrOr (d.get "ifsc_code") "unknown"
      · rw [if_pos he]; rfl
      · rw [if_neg he]; exact hold

theorem processDocs_preserves (b : String) (docs : List FireDoc) (s : St)
    (h : cacheConsistent s) :
    cacheConsistent (docs.foldl (fun s d => Api.processLiteDoc b d s) s) := by
  induction docs generalizing s with
  | nil => exact h
  | cons d rest ih => exact ih _ (processLiteDoc_preserves b d s h)

theorem fetchIFSCsFrom_preserves (b : String) (s : St) (h : cacheConsistent s) :
    cacheConsistent (Api.fetchIFSCsFrom b s).2 := by
  have h₁ : cacheConsistent { s with callIdx := s.callIdx + 1 } :=
    cacheConsistent_congr _ s rfl rfl h
  unfold Api.fetchIFSCsFrom tryCatchE ebind axiosGet takeCall
  simp only
  cases hf : nelem s.callIdx s.faults
  · simp only [Bool.false_eq_true, if_false]
    cases hd : mget b s.dbs with
    | none => exact h₁
    | some db => exact processDocs_preserves b _ _ h₁
  · simp only [if_true]
    exact h₁

/-- **C10.**  After every run of `fetchIFSCs`, every entry of `ifscCache`
has its `ifscCode` present as a key of `apiByIfsc` — provided the caches
already satisfied that invariant before the run (as the constructor's
empty caches do), so a receiver account found in the cache always
resolves to some store base URL. -/
theorem C10_fetchIFSCs_cache_consistent (cfg : Config) (s : St)
    (h : cacheConsistent s) : cacheConsistent (Api.fetchIFSCs cfg s).2 := by
  have main : ∀ (urls : List String) (s : St), cacheConsistent s →
      cacheConsistent (urls.foldl (fun s b => (Api.fetchIFSCsFrom b s).2) s) := by
    intro urls
    induction urls with
    | nil => exact fun s h => h
    | cons b rest ih => exact fun s h => ih _ (fetchIFSCsFrom_preserves b s h)
  exact main cfg.receiverApiBaseUrls s h

/-- A `lite_profile` directory document for account `R1` at IFSC `RIF`. -/
def liteDocW : FireDoc :=
  ⟨"projects/q/databases/d/documents/lite_profile/LP1",
   [("acct_number", FireValue.str "R1"), ("ifsc_code", FireValue.str "RIF"),
    ("name", FireValue.str "Bob")]⟩

/-- A freshly constructed instance: empty caches, one receiver store
whose directory lists `R1`. -/
def stFetchW : St := ⟨[("R", ⟨[], [liteDocW], []⟩)], [], 0, [], [], [], []⟩

/-- Witness for C10: a run over the fresh instance. -/
theorem C10_witness :
    cacheConsistent stFetchW ∧ cacheConsistent (Api.fetchIFSCs cfgW stFetchW).2 :=
  ⟨fun p hp => absurd hp (List.not_mem_nil p),
   C10_fetchIFSCs_cache_consistent cfgW stFetchW
     (fun p hp => absurd hp (List.not_mem_nil p))⟩

/-! ## C8 — fan-out failures never change a completed transfer's outcome -/

/-- **C8.**  For every transfer in which the debit and the credit both
succeed, the transfer is reported successful even when `K < N` of the `N`
receiver stores fail their history-record append (the fault pattern on
the fan-out calls, counted by the hypothesis `hK`, is otherwise
unconstrained), and one append is still attempted per registered store:
each per-store failure is caught inside `createTransaction` and never
reaches the transfer's outcome. -/
theorem C8_fanout_failures_ignored (cfg : Config) (A aI R rI : String) (amt : Int)
    (s : St) (sdb rdb : StoreDB) (sdoc rdoc : FireDoc) (sp rp : Profile) (rbase : String)
    (sb rb : Int)
    (hsdb : mget cfg.senderApi s.dbs = some sdb)
    (hsdoc : findAccountDoc sdb.bankAccount A = some sdoc)
    (hsbal : integerValueOf (sdoc.get "acct_bal") = some sb)
    (hspA : mget A s.ifscCache = some sp)
    (hspI : sp.ifscCode = aI)
    (hrpR : mget R s.ifscCache = some rp)
    (hrpI : rp.ifscCode = rI)
    (hrbase : mget rp.ifscCode s.apiByIfsc = some rbase)
    (hrdb : mget rbase s.dbs = some rdb)
    (hrdoc : findAccountDoc rdb.bankAccount R = some rdoc)
    (hrbal : integerValueOf (rdoc.get "acct_bal") = some rb)
    (hsep : rbase ≠ cfg.senderApi)
    (hc0 : nelem s.callIdx s.faults = false)
    (hc1 : nelem (s.callIdx + 1) s.faults = false)
    (hc2 : nelem (s.callIdx + 2) s.faults = false)
    (hc3 : nelem (s.callIdx + 3) s.faults = false)
    (hc4 : nelem (s.callIdx + 4) s.faults = false)
    (hc5 : nelem (s.callIdx + 5) s.faults = false)
    (hK : ((List.range cfg.receiverApiBaseUrls.length).filter
        (fun i => nelem (s.callIdx + 6 + i) s.faults)).length <
      cfg.receiverApiBaseUrls.length) :
    (Api.transferMoney cfg A aI R rI amt s).1 = Except.ok Api.TransferResult.success ∧
    (Api.transferMoney cfg A aI R rI amt s).2.historyPosts =
      s.historyPosts ++ cfg.receiverApiBaseUrls := by
  obtain ⟨s₄, hrun, hh, _, _⟩ := transfer_happy_master cfg A aI R rI amt s
    sdb rdb sdoc rdoc sp rp rbase sb rb hsdb hsdoc hsbal hspA hspI hrpR hrpI hrbase
    hrdb hrdoc hrbal hsep hc0 hc1 hc2 hc3 hc4 hc5
  obtain ⟨c1, c2, c3, c4⟩ := createTransaction_state cfg A R amt s₄
  rw [hrun]
  exact ⟨rfl, by rw [c4, hh]⟩

/-- Second receiver store, registered but holding no accounts. -/
def cfgW2 : Config := ⟨"S", ["R", "R2"]⟩

/-- Two-receiver world for the fan-out witness. -/
def stW2 (sbal rbal : Int) (faults : List Nat) : St :=
  ⟨[("S", ⟨[senderDocW sbal], [], []⟩), ("R", ⟨[receiverDocW rbal], [], []⟩),
    ("R2", ⟨[], [], []⟩)],
   faults, 0,
   [("S1", ⟨"SIF", some "Alice"⟩), ("R1", ⟨"RIF", some "Bob"⟩)],
   [("RIF", "R")], [], []⟩

/-- Witness for C8: two receiver stores, the fan-out call to the second
one faults (`K = 1 < N = 2`); the transfer still reports success and both
appends were attempted. -/
theorem C8_witness :
    (Api.transferMoney cfgW2 "S1" "SIF" "R1" "RIF" 500 (stW2 5000 2000 [7])).1 =
      Except.ok Api.TransferResult.success ∧
    (Api.transferMoney cfgW2 "S1" "SIF" "R1" "RIF" 500 (stW2 5000 2000 [7])).2.historyPosts =
      (stW2 5000 2000 [7]).historyPosts ++ cfgW2.receiverApiBaseUrls :=
  C8_fanout_failures_ignored cfgW2 "S1" "SIF" "R1" "RIF" 500 (stW2 5000 2000 [7])
    ⟨[senderDocW 5000], [], []⟩ ⟨[receiverDocW 2000], [], []⟩
    (senderDocW 5000) (receiverDocW 2000)
    ⟨"SIF", some "Alice"⟩ ⟨"RIF", some "Bob"⟩ "R" 5000 2000
    rfl rfl rfl rfl rfl rfl rfl rfl rfl rfl rfl (by decide)
    rfl rfl rfl rfl rfl rfl (by decide)

/-! ## C3 — compensation: attempted always, restoring only when it succeeds -/

/-- Counterexample to C3 as stated: sender balance 5000, amount 500; the
credit `PATCH` (call 5) faults and the compensating `PATCH` (call 7)
also faults.  The run still ends in the rolled-back-abort outcome, but
the sender's stored balance is NOT restored to its pre-transfer value:
it stays at 4500. -/
theorem C3_counterexample :
    (Api.transferMoney cfgW "S1" "SIF" "R1" "RIF" 500 (stW 5000 2000 [5, 7])).1 =
      Except.ok Api.TransferResult.creditFailedRolledBack ∧
    storedBalance (stW 5000 2000 [5, 7]) cfgW.senderApi "S1" = some 5000 ∧
    storedBalance (Api.transferMoney cfgW "S1" "SIF" "R1" "RIF" 500
        (stW 5000 2000 [5, 7])).2 cfgW.senderApi "S1" = some 4500 ∧
    (some (4500 : Int) ≠ some (5000 : Int)) :=
  ⟨by rfl, by rfl, by rfl, by decide⟩

/-- **C3 (amended).**  For every transfer in which the sender debit
succeeds and the receiver credit fails, a compensating patch of
`+amount` is attempted on the sender; when that compensating patch
succeeds (as hypothesised here: calls 6 and 7 are fault-free), the
sender's stored balance is restored to its pre-transfer value, and the
transfer terminates as an abort — the rolled-back credit-failure
outcome — rather than a success.  (When the compensating patch itself
fails the balance stays debited; see the counterexample.) -/
theorem C3_amended_compensation_restores (cfg : Config) (A aI R rI : String) (amt : Int)
    (s : St) (sdb rdb : StoreDB) (sdoc rdoc : FireDoc) (sp rp : Profile) (rbase : String)
    (sb rb : Int)
    (hsdb : mget cfg.senderApi s.dbs = some sdb)
    (hsdoc : findAccountDoc sdb.bankAccount A = some sdoc)
    (hsbal : integerValueOf (sdoc.get "acct_bal") = some sb)
    (hspA : mget A s.ifscCache = some sp)
    (hspI : sp.ifscCode = aI)
    (hrpR : mget R s.ifscCache = some rp)
    (hrpI : rp.ifscCode = rI)
    (hrbase : mget rp.ifscCode s.apiByIfsc = some rbase)
    (hrdb : mget rbase s.dbs = some rdb)
    (hrdoc : findAccountDoc rdb.bankAccount R = some rdoc)
    (hrbal : integerValueOf (rdoc.get "acct_bal") = some rb)
    (hsep : rbase ≠ cfg.senderApi)
    (hc0 : nelem s.callIdx s.faults = false)
    (hc1 : nelem (s.callIdx + 1) s.faults = false)
    (hc2 : nelem (s.callIdx + 2) s.faults = false)
    (hc3 : nelem (s.callIdx + 3) s.faults = false)
    (hc4 : nelem (s.callIdx + 4) s.faults = false)
    (hc5 : nelem (s.callIdx + 5) s.faults = true)
    (hc6 : nelem (s.callIdx + 6) s.faults = false)
    (hc7 : nelem (s.callIdx + 7) s.faults = false) :
    ∃ s₅ : St,
      Api.transferMoney cfg A aI R rI amt s =
        (Except.ok Api.TransferResult.creditFailedRolledBack, s₅) ∧
      storedBalance s₅ cfg.senderApi A = some sb ∧
      storedBalance s cfg.senderApi A = some sb := by
  have hv1 : Api.validateBankAccount cfg A true s =
      (Except.ok (findAccountDoc sdb.bankAccount A).isSome,
       { s with callIdx := s.callIdx + 1 }) :=
    validate_sender_run cfg A s sdb hsdb hc0
  have hres : Api.resolveReceiverBase { s with callIdx := s.callIdx + 1 } R = some rbase := by
    simp only [Api.resolveReceiverBase, hrpR, hrbase]
  have hv2 : Api.validateBankAccount cfg R false { s with callIdx := s.callIdx + 1 } =
      (Except.ok (findAccountDoc rdb.bankAccount R).isSome,
       { s with callIdx := s.callIdx + 2 }) :=
    validate_receiver_run cfg R { s with callIdx := s.callIdx + 1 } rbase rdb hres hrdb hc1
  have hdebit : Api.updateBankAccount cfg A (-amt) true { s with callIdx := s.callIdx + 2 } =
      (Except.ok true,
       { s with callIdx := s.callIdx + 4,
                patches := s.patches ++ [⟨cfg.senderApi, lastSegment sdoc.name,
                  [("acct_bal", FireValue.int (sb + -amt))], some ["acct_bal"]⟩],
                dbs := mapSet s.dbs cfg.senderApi (patchDocIn sdb (lastSegment sdoc.name)
                  [("acct_bal", FireValue.int (sb + -amt))] (some ["acct_bal"])) }) :=
    update_run_ok cfg A (-amt) true { s with callIdx := s.callIdx + 2 } cfg.senderApi
      sdb sdoc sb rfl hsdb hsdoc hsbal hc2 hc3
  have hres₃ : Api.resolveReceiverBase
      { s with callIdx := s.callIdx + 4,
               patches := s.patches ++ [⟨cfg.senderApi, lastSegment sdoc.name,
                 [("acct_bal", FireValue.int (sb + -amt))], some ["acct_bal"]⟩],
               dbs := mapSet s.dbs cfg.senderApi (patchDocIn sdb (lastSegment sdoc.name)
                 [("acct_bal", FireValue.int (sb + -amt))] (some ["acct_bal"])) } R =
      some rbase := by
    simp only [Api.resolveReceiverBase, hrpR, hrbase]
  have hdb₃ : mget rbase (mapSet s.dbs cfg.senderApi (patchDocIn sdb (lastSegment sdoc.name)
      [("acct_bal", FireValue.int (sb + -amt))] (some ["acct_bal"]))) = some rdb := by
    rw [mget_mapSet, if_neg hsep, hrdb]
  have hcreditFail : Api.updateBankAccount cfg R amt false
      { s with callIdx := s.callIdx + 4,
               patches := s.patches ++ [⟨cfg.senderApi, lastSegment sdoc.name,
                 [("acct_bal", FireValue.int (sb + -amt))], some ["acct_bal"]⟩],
               dbs := mapSet s.dbs cfg.senderApi (patchDocIn sdb (lastSegment sdoc.name)
                 [("acct_bal", FireValue.int (sb + -amt))] (some ["acct_bal"])) } =
      (Except.ok false,
       { s with callIdx := s.callIdx + 6,
                patches := (s.patches ++ [⟨cfg.senderApi, lastSegment sdoc.name,
                    [("acct_bal", FireValue.int (sb + -amt))], some ["acct_bal"]⟩]) ++
                  [⟨rbase, lastSegment rdoc.name,
                    [("acct_bal", FireValue.int (rb + amt))], some ["acct_bal"]⟩],
                dbs := mapSet s.dbs cfg.senderApi (patchDocIn sdb (lastSegment sdoc.name)
                  [("acct_bal", FireValue.int (sb + -amt))] (some ["acct_bal"])) }) :=
    update_run_patchFault cfg R amt false
      { s with callIdx := s.callIdx + 4,
               patches := s.patches ++ [⟨cfg.senderApi, lastSegment sdoc.name,
                 [("acct_bal", FireValue.int (sb + -amt))], some ["acct_bal"]⟩],
               dbs := mapSet s.dbs cfg.senderApi (patchDocIn sdb (lastSegment sdoc.name)
                 [("acct_bal", FireValue.int (sb + -amt))] (some ["acct_bal"])) }
      rbase rdb rdoc rb hres₃ hdb₃ hrdoc hrbal hc4 hc5
  have hdbComp : mget cfg.senderApi (mapSet s.dbs cfg.senderApi
      (patchDocIn sdb (lastSegment sdoc.name)
        [("acct_bal", FireValue.int (sb + -amt))] (some ["acct_bal"]))) =
      some (patchDocIn sdb (lastSegment sdoc.name)
        [("acct_bal", FireValue.int (sb + -amt))] (some ["acct_bal"])) := by
    rw [mget_mapSet, if_pos rfl]
  have hdocComp : findAccountDoc (patchDocIn sdb (lastSegment sdoc.name)
      [("acct_bal", FireValue.int (sb + -amt))] (some ["acct_bal"])).bankAccount A =
      some (applyPatch sdoc [("acct_bal", FireValue.int (sb + -amt))] (some ["acct_bal"])) := by
    rw [findAccountDoc_patchDocIn _ _ _ _ _ hsdoc, if_pos rfl]
  have hcomp : Api.updateBankAccount cfg A amt true
      { s with callIdx := s.callIdx + 6,
               patches := (s.patches ++ [⟨cfg.senderApi, lastSegment sdoc.name,
                   [("acct_bal", FireValue.int (sb + -amt))], some ["acct_bal"]⟩]) ++
                 [⟨rbase, lastSegment rdoc.name,
                   [("acct_bal", FireValue.int (rb + amt))], some ["acct_bal"]⟩],
               dbs := mapSet s.dbs cfg.senderApi (patchDocIn sdb (lastSegment sdoc.name)
                 [("acct_bal", FireValue.int (sb + -amt))] (some ["acct_bal"])) } =
      (Except.ok true,
       { s with callIdx := s.callIdx + 8,
                patches := ((s.patches ++ [⟨cfg.senderApi, lastSegment sdoc.name,
                    [("acct_bal", FireValue.int (sb + -amt))], some ["acct_bal"]⟩]) ++
                  [⟨rbase, lastSegment rdoc.name,
                    [("acct_bal", FireValue.int (rb + amt))], some ["acct_bal"]⟩]) ++
                  [⟨cfg.senderApi, lastSegment sdoc.name,
                    [("acct_bal", FireValue.int (sb + -amt + amt))], some ["acct_bal"]⟩],
                dbs := mapSet (mapSet s.dbs cfg.senderApi
                    (patchDocIn sdb (lastSegment sdoc.name)
                      [("acct_bal", FireValue.int (sb + -amt))] (some ["acct_bal"])))
                  cfg.senderApi
                  (patchDocIn (patchDocIn sdb (lastSegment sdoc.name)
                      [("acct_bal", FireValue.int (sb + -amt))] (some ["acct_bal"]))
                    (lastSegment sdoc.name)
                    [("acct_bal", FireValue.int (sb + -amt + amt))] (some ["acct_bal"])) }) :=
    update_run_ok cfg A amt true
      { s with callIdx := s.callIdx + 6,
               patches := (s.patches ++ [⟨cfg.senderApi, lastSegment sdoc.name,
                   [("acct_bal", FireValue.int (sb + -amt))], some ["acct_bal"]⟩]) ++
                 [⟨rbase, lastSegment rdoc.name,
                   [("acct_bal", FireValue.int (rb + amt))], some ["acct_bal"]⟩],
               dbs := mapSet s.dbs cfg.senderApi (patchDocIn sdb (lastSegment sdoc.name)
                 [("acct_bal", FireValue.int (sb + -amt))] (some ["acct_bal"])) }
      cfg.senderApi
      (patchDocIn sdb (lastSegment sdoc.name)
        [("acct_bal", FireValue.int (sb + -amt))] (some ["acct_bal"]))
      (applyPatch sdoc [("acct_bal", FireValue.int (sb + -amt))] (some ["acct_bal"]))
      (sb + -amt)
      rfl hdbComp hdocComp (integerValueOf_patched sdoc (sb + -amt)) hc6 hc7
  refine ⟨({ s with
             callIdx := s.callIdx + 8,
             patches := ((s.patches ++ [⟨cfg.senderApi, lastSegment sdoc.name,
                 [("acct_bal", FireValue.int (sb + -amt))], some ["acct_bal"]⟩]) ++
               [⟨rbase, lastSegment rdoc.name,
                 [("acct_bal", FireValue.int (rb + amt))], some ["acct_bal"]⟩]) ++
               [⟨cfg.senderApi, lastSegment sdoc.name,
                 [("acct_bal", FireValue.int (sb + -amt + amt))], some ["acct_bal"]⟩],
             dbs := mapSet (mapSet s.dbs cfg.senderApi
                 (patchDocIn sdb (lastSegment sdoc.name)
                   [("acct_bal", FireValue.int (sb + -amt))] (some ["acct_bal"])))
               cfg.senderApi
               (patchDocIn (patchDocIn sdb (lastSegment sdoc.name)
                   [("acct_bal", FireValue.int (sb + -amt))] (some ["acct_bal"]))
                 (lastSegment sdoc.name)
                 [("acct_bal", FireValue.int (sb + -amt + amt))] (some ["acct_bal"])) } : St),
    ?_, ?_, ?_⟩
  · simp only [Api.transferMoney, ebind, epure]
    rw [hv1]
    simp only [hsdoc, Option.isSome_some, Bool.not_true, Bool.false_eq_true, if_false, hspA]
    rw [if_neg (show ¬ sp.ifscCode ≠ aI from fun h => h hspI)]
    try simp only [ebind, epure]
    rw [hv2]
    simp only [hrdoc, Option.isSome_some, Bool.not_true, Bool.false_eq_true, if_false, hrpR]
    rw [if_neg (show ¬ rp.ifscCode ≠ rI from fun h => h hrpI)]
    try simp only [ebind, epure]
    rw [hdebit]
    simp only [Bool.not_true, Bool.false_eq_true, if_false, ebind, epure]
    rw [hcreditFail]
    simp only [Bool.not_false, if_true, ebind, epure]
    rw [hcomp]
  · unfold storedBalance bankOf
    rw [show mget cfg.senderApi (mapSet (mapSet s.dbs cfg.senderApi
        (patchDocIn sdb (lastSegment sdoc.name)
          [("acct_bal", FireValue.int (sb + -amt))] (some ["acct_bal"])))
        cfg.senderApi
        (patchDocIn (patchDocIn sdb (lastSegment sdoc.name)
            [("acct_bal", FireValue.int (sb + -amt))] (some ["acct_bal"]))
          (lastSegment sdoc.name)
          [("acct_bal", FireValue.int (sb + -amt + amt))] (some ["acct_bal"]))) =
      some (patchDocIn (patchDocIn sdb (lastSegment sdoc.name)
          [("acct_bal", FireValue.int (sb + -amt))] (some ["acct_bal"]))
        (lastSegment sdoc.name)
        [("acct_bal", FireValue.int (sb + -amt + amt))] (some ["acct_bal"])) from by
      rw [mget_mapSet, if_pos rfl]]
    simp only [Option.map]
    rw [findAccountDoc_patchDocIn _ _ _ _ _ hdocComp, applyPatch_name, if_pos rfl]
    simp only [integerValueOf_patched]
    rw [neg_add_cancel_right]
  · unfold storedBalance bankOf
    rw [hsdb]
    simp only [Option.map]
    rw [hsdoc]
    exact hsbal

/-- Witness for C3 (amended): credit patch faults (call 5), compensation
succeeds — sender balance back at 5000. -/
theorem C3_witness :
    ∃ s₅ : St,
      Api.transferMoney cfgW "S1" "SIF" "R1" "RIF" 500 (stW 5000 2000 [5]) =
        (Except.ok Api.TransferResult.creditFailedRolledBack, s₅) ∧
      storedBalance s₅ cfgW.senderApi "S1" = some 5000 ∧
      storedBalance (stW 5000 2000 [5]) cfgW.senderApi "S1" = some 5000 :=
  C3_amended_compensation_restores cfgW "S1" "SIF" "R1" "RIF" 500 (stW 5000 2000 [5])
    ⟨[senderDocW 5000], [], []⟩ ⟨[receiverDocW 2000], [], []⟩
    (senderDocW 5000) (receiverDocW 2000)
    ⟨"SIF", some "Alice"⟩ ⟨"RIF", some "Bob"⟩ "R" 5000 2000
    rfl rfl rfl rfl rfl rfl rfl rfl rfl rfl rfl (by decide)
    rfl rfl rfl rfl rfl rfl rfl rfl

/-! ## C4 — no distinct CompensationFailed outcome exists (code bug) -/

/-- **C4** (demonstration of the code bug).  With the compensating patch
succeeding (faults `[5]`) and failing (faults `[5, 7]`), the caller
observes the SAME outcome — `transferMoney` discards the compensating
`updateBankAccount`'s result and logs "Rolled back sender's balance."
either way — while the stored sender balances differ: 5000 (restored)
versus 4300 (still debited, receiver never credited).  The spec requires
a distinct, loudly-reported `CompensationFailed` outcome here; no such
outcome exists in the code. -/
theorem C4_no_distinct_compensationFailed :
    (Api.transferMoney cfgW "S1" "SIF" "R1" "RIF" 700 (stW 5000 2000 [5])).1 =
      (Api.transferMoney cfgW "S1" "SIF" "R1" "RIF" 700 (stW 5000 2000 [5, 7])).1 ∧
    (Api.transferMoney cfgW "S1" "SIF" "R1" "RIF" 700 (stW 5000 2000 [5, 7])).1 =
      Except.ok Api.TransferResult.creditFailedRolledBack ∧
    storedBalance (Api.transferMoney cfgW "S1" "SIF" "R1" "RIF" 700
        (stW 5000 2000 [5])).2 cfgW.senderApi "S1" = some 5000 ∧
    storedBalance (Api.transferMoney cfgW "S1" "SIF" "R1" "RIF" 700
        (stW 5000 2000 [5, 7])).2 cfgW.senderApi "S1" = some 4300 :=
  ⟨by rfl, by rfl, by decide, by decide⟩

/-! ## C6 — insufficient funds: checked in one variant, absent in the other -/

/-- Counterexample to C6 as stated: in `src/api/BankTransferAPI.js` no
balance check exists at all.  Sender balance 300, amount 500, all four
validation checks pass — the transfer COMPLETES, two balance patches are
issued, and the sender's stored balance goes negative (−200). -/
theorem C6_counterexample :
    (Api.transferMoney cfgW "S1" "SIF" "R1" "RIF" 500 (stW 300 2000 [])).1 =
      Except.ok Api.TransferResult.success ∧
    storedBalance (Api.transferMoney cfgW "S1" "SIF" "R1" "RIF" 500 (stW 300 2000 [])).2
      cfgW.senderApi "S1" = some (-200) ∧
    (Api.transferMoney cfgW "S1" "SIF" "R1" "RIF" 500
        (stW 300 2000 [])).2.patches.length = 2 :=
  ⟨by rfl, by decide, by rfl⟩

/-- `Root.fetchBankAccount` when the `GET` succeeds and the account is
found. -/
theorem fetchBankAccount_run (cfg : Config) (A : String) (s : St) (sdb : StoreDB)
    (doc : FireDoc)
    (hsdb : mget cfg.senderApi s.dbs = some sdb)
    (hdoc : Root.findAccountDocB sdb.bankAccount A = some doc)
    (hc0 : nelem s.callIdx s.faults = false) :
    Root.fetchBankAccount cfg A s =
      (Except.ok ⟨lastSegment doc.name, integerValueOf (doc.get "acct_balance"),
        stringValueOf (doc.get "acct_status")⟩,
       { s with callIdx := s.callIdx + 1 }) := by
  simp only [Root.fetchBankAccount, tryCatchE, ebind, axiosGet, takeCall, getColl_bank,
    hc0, hsdb, hdoc, Bool.false_eq_true, if_false]

/-- **C6 (amended).**  In `src/BankTransferAPI.js` — the variant whose
`validateTransfer` performs the balance check — every request whose
receiver cache, IFSC, name and active-status checks pass but whose
sender balance is below the amount fails with the insufficient-funds
reason, and no balance patch is issued to any store: the state is
unchanged except for the one read call.  (The `src/api` variant performs
no balance check at all; see the counterexample.) -/
theorem C6_amended_insufficient_funds_aborts (cfg : Config)
    (A rAcct rIfsc rName : String) (amt : Int) (s : St) (sdb : StoreDB) (doc : FireDoc)
    (b : Int) (rp : Profile)
    (hcache : s.ifscCache.isEmpty = false)
    (hsdb : mget cfg.senderApi s.dbs = some sdb)
    (hdoc : Root.findAccountDocB sdb.bankAccount A = some doc)
    (hbal : integerValueOf (doc.get "acct_balance") = some b)
    (hstatus : stringValueOf (doc.get "acct_status") = some "active")
    (hrp : mget rAcct s.ifscCache = some rp)
    (hrpI : rp.ifscCode = rIfsc)
    (hrpN : rp.name = some rName)
    (hlt : b < amt)
    (hc0 : nelem s.callIdx s.faults = false) :
    Root.transferMoney cfg A rAcct rIfsc rName amt s =
      (Except.ok (Root.TransferOutcome.failed (Root.vmsg Root.VReason.insufficientFunds)),
       { s with callIdx := s.callIdx + 1 }) := by
  have hfetch := fetchBankAccount_run cfg A s sdb doc hsdb hdoc hc0
  have hval : Root.validateTransfer s.ifscCache
      ⟨lastSegment doc.name, integerValueOf (doc.get "acct_balance"),
        stringValueOf (doc.get "acct_status")⟩ rAcct rIfsc rName amt =
      some Root.VReason.insufficientFunds := by
    simp only [Root.validateTransfer, hrp, hbal, hstatus]
    rw [if_neg (fun h => h hrpI), if_neg (fun h => h hrpN), if_neg (fun h => h rfl),
      if_pos (show Root.balLt (some b) amt = true from decide_eq_true hlt)]
  simp only [Root.transferMoney, tryCatchE, ebind, epure, hcache, Bool.false_eq_true,
    if_false]
  rw [hfetch]
  simp only [hval]

/-- The sender-store account document of the `src/BankTransferAPI.js`
world: integer account number, `acct_balance`/`acct_status` fields, plus
unrelated fields. -/
def rootDocW (bal : Int) : FireDoc :=
  ⟨"projects/p/databases/d/documents/bank_account/BDOC1",
   [("acct_number", FireValue.int 100), ("acct_balance", FireValue.int bal),
    ("acct_status", FireValue.str "active"), ("cust_id", FireValue.int 9),
    ("acct_name", FireValue.str "Dhasagreevan C")]⟩

def stRootW (bal : Int) (faults : List Nat) : St :=
  ⟨[("S", ⟨[rootDocW bal], [], []⟩), ("R", ⟨[], [], []⟩)],
   faults, 0, [("R1", ⟨"RIF", some "Bob"⟩)], [], [], []⟩

/-- Witness for C6 (amended): balance 300, amount 500. -/
theorem C6_witness :
    Root.transferMoney cfgW "100" "R1" "RIF" "Bob" 500 (stRootW 300 []) =
      (Except.ok (Root.TransferOutcome.failed (Root.vmsg Root.VReason.insufficientFunds)),
       { stRootW 300 [] with callIdx := 1 }) :=
  C6_amended_insufficient_funds_aborts cfgW "100" "R1" "RIF" "Bob" 500 (stRootW 300 [])
    ⟨[rootDocW 300], [], []⟩ (rootDocW 300) 300 ⟨"RIF", some "Bob"⟩
    rfl rfl (by rfl) rfl rfl rfl rfl rfl (by decide) rfl

/-! ## C7 — balance patches touch only the balance field -/

/-- **C7 (amended).**  Every balance-patch request issued by the
`src/api` variant's `updateBankAccount` carries
`updateMask.fieldPaths = acct_bal` and a payload writing only `acct_bal`;
applying such a masked patch to any document leaves every other field
(account number, customer id, account name, status) unchanged.  (The
`src/BankTransferAPI.js` variant's `updateBankAccount` sends an unmasked
patch that replaces the whole field set; see the counterexample.) -/
theorem C7_amended_api_patch_masked (cfg : Config) (acct : String) (amount : Int)
    (isSender : Bool) (s : St) :
    ∀ p ∈ ((Api.updateBankAccount cfg acct amount isSender s).2.patches.drop
        s.patches.length),
      p.mask = some ["acct_bal"] ∧
      ∀ (d : FireDoc) (k : String), k ≠ "acct_bal" →
        (applyPatch d p.payload p.mask).get k = d.get k := by
  simp only [Api.updateBankAccount, Api.fetchDocument, tryCatchE, ebind, epure,
    axiosGet, axiosPatch, takeCall]
  cases hb : (if isSender then some cfg.senderApi else Api.resolveReceiverBase s acct) with
  | none =>
    intro p hp
    rw [List.drop_length] at hp
    exact absurd hp (List.not_mem_nil p)
  | some base =>
    simp only
    cases hf : nelem s.callIdx s.faults
    · simp only [Bool.false_eq_true, if_false]
      cases hd : mget base s.dbs with
      | none =>
        simp only [findAccountDoc, List.find?_nil]
        intro p hp
        rw [List.drop_length] at hp
        exact absurd hp (List.not_mem_nil p)
      | some db =>
        simp only
        cases hfind : findAccountDoc (getColl db "bank_account") acct with
        | none =>
          simp only [hfind]
          intro p hp
          rw [List.drop_length] at hp
          exact absurd hp (List.not_mem_nil p)
        | some doc =>
          simp only [hfind]
          cases hcur : integerValueOf (doc.get "acct_bal") with
          | none =>
            intro p hp
            rw [List.drop_length] at hp
            exact absurd hp (List.not_mem_nil p)
          | some cur =>
            simp only
            cases hf₁ : nelem (s.callIdx + 1) s.faults
            · simp only [Bool.false_eq_true, if_false]
              cases hd₁ : mget base s.dbs with
              | none =>
                simp only [hd₁]
                intro p hp
                rw [List.drop_left] at hp
                obtain rfl := List.mem_singleton.mp hp
                refine ⟨rfl, fun d k hk => ?_⟩
                exact applyPatch_get_other d _ _ k (by simp only [keyIn, if_neg hk])
              | some db₁ =>
                simp only [hd₁]
                intro p hp
                rw [List.drop_left] at hp
                obtain rfl := List.mem_singleton.mp hp
                refine ⟨rfl, fun d k hk => ?_⟩
                exact applyPatch_get_other d _ _ k (by simp only [keyIn, if_neg hk])
            · simp only [if_true]
              intro p hp
              rw [List.drop_left] at hp
              obtain rfl := List.mem_singleton.mp hp
              refine ⟨rfl, fun d k hk => ?_⟩
              exact applyPatch_get_other d _ _ k (by simp only [keyIn, if_neg hk])
    · simp only [if_true, findAccountDoc, List.find?_nil]
      intro p hp
      rw [List.drop_length] at hp
      exact absurd hp (List.not_mem_nil p)

/-- Witness for C7 (amended): the debit patch of a concrete run carries
the `acct_bal` mask, and applying it to the sender document leaves
`cust_id` untouched. -/
theorem C7_witness :
    (⟨"S", "SDOC1", [("acct_bal", FireValue.int 4500)], some ["acct_bal"]⟩ :
        PatchReq).mask = some ["acct_bal"] ∧
    (applyPatch (senderDocW 5000) [("acct_bal", FireValue.int 4500)]
        (some ["acct_bal"])).get "cust_id" = (senderDocW 5000).get "cust_id" :=
  have happ := C7_amended_api_patch_masked cfgW "S1" (-500) true (stW 5000 2000 [])
    ⟨"S", "SDOC1", [("acct_bal", FireValue.int 4500)], some ["acct_bal"]⟩
    (by rw [show (stW 5000 2000 []).patches.length = 0 from rfl, List.drop_zero]
        exact List.mem_cons_self _ _)
  ⟨happ.1, happ.2 (senderDocW 5000) "cust_id" (by decide)⟩

/-- Counterexample to C7 as stated: the `src/BankTransferAPI.js` variant's
`updateBankAccount` issues its patch with NO update mask, so the store
replaces the document's whole field set: after the patch the account
document retains only `acct_balance` — its `acct_number`, `cust_id`,
`acct_status` and `acct_name` are gone. -/
theorem C7_counterexample :
    (Root.updateBankAccount cfgW "BDOC1" (some 4500) (stRootW 5000 [])).1 =
      Except.ok () ∧
    (Root.updateBankAccount cfgW "BDOC1" (some 4500) (stRootW 5000 [])).2.patches =
      [⟨"S", "BDOC1", [("acct_balance", FireValue.int 4500)], none⟩] ∧
    bankOf (Root.updateBankAccount cfgW "BDOC1" (some 4500) (stRootW 5000 [])).2 "S" =
      some [⟨"projects/p/databases/d/documents/bank_account/BDOC1",
        [("acct_balance", FireValue.int 4500)]⟩] ∧
    (rootDocW 5000).get "cust_id" = some (FireValue.int 9) :=
  ⟨by rfl, by rfl, by rfl, by rfl⟩

/-! ## C5 — distinct validation reasons -/

/-- Counterexample to C5 as stated: in `src/api/BankTransferAPI.js`,
`validateBankAccount` reports every failure as the bare boolean `false`.
Two genuinely different causes — the receiver account missing from the
routing cache (a routing failure), and the receiver account absent from
the resolved store's `bank_account` collection (a not-found failure) —
yield the identical result, so no reason reaches the caller. -/
theorem C5_counterexample :
    (Api.validateBankAccount cfgW "R1" false
        { stW 5000 2000 [] with ifscCache := [] }).1 = Except.ok false ∧
    (Api.validateBankAccount cfgW "R1" false
        { stW 5000 2000 [] with
          dbs := [("S", ⟨[senderDocW 5000], [], []⟩), ("R", ⟨[], [], []⟩)] }).1 =
      Except.ok false ∧
    (Api.validateBankAccount cfgW "R1" false
        { stW 5000 2000 [] with ifscCache := [] }).1 =
      (Api.validateBankAccount cfgW "R1" false
        { stW 5000 2000 [] with
          dbs := [("S", ⟨[senderDocW 5000], [], []⟩), ("R", ⟨[], [], []⟩)] }).1 :=
  ⟨by rfl, by rfl, by rfl⟩

/-- **C5 (amended).**  In `src/BankTransferAPI.js`, every input on which
`validateTransfer` fails yields a reason identifying exactly the check
that failed — the five characterisations below invert the function — and
the five thrown `Error` messages are pairwise distinct, never a generic
indistinguishable failure.  (The `src/api` variant's
`validateBankAccount` collapses every failure to `false`; see the
counterexample.) -/
theorem C5_amended_validateTransfer_distinct_reasons :
    (∀ (cache : List (String × Profile)) (sender : Root.SenderAccount)
        (rAcct rIfsc rName : String) (amount : Int),
      (Root.validateTransfer cache sender rAcct rIfsc rName amount =
          some Root.VReason.notFound ↔ mget rAcct cache = none) ∧
      (Root.validateTransfer cache sender rAcct rIfsc rName amount =
          some Root.VReason.routingMismatch ↔
        ∃ rd, mget rAcct cache = some rd ∧ rd.ifscCode ≠ rIfsc) ∧
      (Root.validateTransfer cache sender rAcct rIfsc rName amount =
          some Root.VReason.nameMismatch ↔
        ∃ rd, mget rAcct cache = some rd ∧ rd.ifscCode = rIfsc ∧
          rd.name ≠ some rName) ∧
      (Root.validateTransfer cache sender rAcct rIfsc rName amount =
          some Root.VReason.inactive ↔
        (∃ rd, mget rAcct cache = some rd ∧ rd.ifscCode = rIfsc ∧
          rd.name = some rName) ∧ sender.status ≠ some "active") ∧
      (Root.validateTransfer cache sender rAcct rIfsc rName amount =
          some Root.VReason.insufficientFunds ↔
        (∃ rd, mget rAcct cache = some rd ∧ rd.ifscCode = rIfsc ∧
          rd.name = some rName) ∧ sender.status = some "active" ∧
          Root.balLt sender.balance amount = true)) ∧
    Function.Injective Root.vmsg := by
  constructor
  · intro cache sender rAcct rIfsc rName amount
    cases hm : mget rAcct cache with
    | none => simp [Root.validateTransfer, hm]
    | some rd =>
      by_cases h₁ : rd.ifscCode = rIfsc
      · by_cases h₂ : rd.name = some rName
        · by_cases h₃ : sender.status = some "active"
          · by_cases h₄ : Root.balLt sender.balance amount
            · simp [Root.validateTransfer, hm, h₁, h₂, h₃, h₄]
            · simp [Root.validateTransfer, hm, h₁, h₂, h₃, h₄]
          · simp [Root.validateTransfer, hm, h₁, h₂, h₃]
        · simp [Root.validateTransfer, hm, h₁, h₂]
      · simp [Root.validateTransfer, hm, h₁]
  · intro a b hab
    cases a <;> cases b <;> first | rfl | (exfalso; simp [Root.vmsg] at hab)

/-- Witness for C5 (amended): an empty cache fails with `notFound`, and
two distinct reasons carry distinct messages. -/
theorem C5_witness :
    Root.validateTransfer [] ⟨"id1", some 100, some "active"⟩ "R1" "RIF" "Bob" 500 =
      some Root.VReason.notFound ∧
    Root.vmsg Root.VReason.notFound ≠ Root.vmsg Root.VReason.insufficientFunds :=
  ⟨((C5_amended_validateTransfer_distinct_reasons.1 []
      ⟨"id1", some 100, some "active"⟩ "R1" "RIF" "Bob" 500).1).mpr rfl,
   fun h => Root.VReason.noConfusion
     (C5_amended_validateTransfer_distinct_reasons.2 h)⟩

end InterBank
